import Mathlib

/-!
# profile-exporter: query result to time series translation and delivery

A shallow embedding of `cmd/profile-exporter/main.go` and
`cmd/profile-exporter/remote_write.go`.

* Go strings are byte sequences (`GoString`); string literals of the source are
  written `ascii "..."`.
* A Go `error` is represented by its message.
* External collaborators (the query service, the Arrow IPC decoder, the protobuf
  and snappy encoders, the HTTP transport) are inputs of the model: what they
  return is data handed to the embedded functions.
* An index out of range panics in Go; the embedded accessors return `none`
  there and the embedded functions report `panic`.
-/

set_option autoImplicit false

namespace ProfileExporter

/-! ## Strings and errors -/

/-- A Go string: an immutable sequence of bytes. -/
abbrev GoString := List (Fin 256)

/-- The bytes of an ASCII string literal of the source. -/
def ascii (s : String) : GoString := s.toList.map (fun c => Fin.ofNat c.toNat)

/-- A Go error value, represented by the message `Error()` returns. -/
abbrev Error := GoString

/-- Whether `s` begins with the bytes of `t`. -/
def startsWith : GoString → GoString → Bool
  | _, [] => true
  | [], _ :: _ => false
  | a :: s, b :: t => a == b && startsWith s t

/-- Go `strings.Contains(s, substr)`: `substr` occurs in `s` at some byte offset. -/
def strings.Contains : GoString → GoString → Bool
  | [], substr => startsWith [] substr
  | a :: s, substr => startsWith (a :: s) substr || strings.Contains s substr

/-! ## Numeric conversions -/

/-- The number of binary digits to drop so that a magnitude `n < 2 ^ 64` fits the
53-bit significand of a binary64 value. -/
def float64Shift (n : Nat) : Nat :=
  ((List.range 12).filter (fun e => decide (2 ^ (53 + e) ≤ n))).length

/-- The 64-bit two's complement value of an integer: what Go `int64` arithmetic yields
where the exact result is `x`. -/
def wrapInt64 (x : Int) : Int := (x + 2 ^ 63) % 2 ^ 64 - 2 ^ 63

/-- Go `float64(v)` for a 64-bit integer `v`: the binary64 value nearest to `v`
(ties to even). Every such value is an integer, and the result is represented
by the integer it denotes. -/
def float64 (v : Int) : Int :=
  let n := v.natAbs
  let e := float64Shift n
  let q := n / 2 ^ e
  let r := n % 2 ^ e
  let q1 := if 2 ^ e < 2 * r ∨ (2 * r = 2 ^ e ∧ q % 2 = 1) then q + 1 else q
  Int.sign v * ((q1 * 2 ^ e : Nat) : Int)

/-! ## Configuration (main.go, lines 75-84) -/

/-- Go `FunctionMatcher`. -/
structure FunctionMatcher where
  Contains : GoString
  deriving DecidableEq, Repr

/-- Go `QueryConfig`; `Duration` is a `model.Duration`, in nanoseconds. -/
structure QueryConfig where
  Name : GoString
  Query : GoString
  Duration : Int
  Matchers : List FunctionMatcher
  deriving DecidableEq, Repr

/-! ## Prometheus remote-write messages -/

/-- A label of a time series. -/
structure Label where
  Name : GoString
  Value : GoString
  deriving DecidableEq, Repr

/-- A sample: a timestamp in milliseconds since the epoch and a binary64 value. -/
structure Sample where
  Timestamp : Int
  Value : Int
  deriving DecidableEq, Repr

/-- A time series: a label set and its samples. -/
structure TimeSeries where
  Labels : List Label
  Samples : List Sample
  deriving DecidableEq, Repr

/-- The message handed to `Client.Send`. -/
structure WriteRequest where
  Timeseries : List TimeSeries
  deriving DecidableEq, Repr

/-! ## Arrow records -/

/-- An Arrow array, by its Go runtime type: `*array.Int64`, `*array.String`,
`*array.Dictionary` (index values and the dictionary array), or any other array type
(of which only the length matters). -/
inductive ArrowArray where
  | int64 (values : List Int)
  | string (values : List GoString)
  | dictionary (indices : List Nat) (dict : ArrowArray)
  | other (len : Nat)
  deriving DecidableEq, Repr

/-- Go `arr.Len()`. -/
def ArrowArray.Len : ArrowArray → Nat
  | .int64 values => values.length
  | .string values => values.length
  | .dictionary indices _ => indices.length
  | .other len => len

/-- The Arrow format invariant of an array: every index of a dictionary array is a
position of its dictionary. -/
def ArrowArray.wellFormed : ArrowArray → Bool
  | .int64 _ => true
  | .string _ => true
  | .dictionary indices dict => dict.wellFormed && indices.all (fun k => decide (k < dict.Len))
  | .other _ => true

/-- An Arrow record: schema field `i` (its name) paired with column `i`, and the
row count. -/
structure Record where
  columns : List (GoString × ArrowArray)
  numRows : Nat
  deriving DecidableEq, Repr

/-- The invariant of a record read from an Arrow stream: every column is a well-formed
array and has `numRows` elements. -/
def Record.wellFormed (r : Record) : Bool :=
  r.columns.all (fun c => c.2.wellFormed && decide (c.2.Len = r.numRows))

/-- The positions, from `i` on, of the fields named `n`. -/
def fieldIndicesFrom (n : GoString) : Nat → List (GoString × ArrowArray) → List Nat
  | _, [] => []
  | i, c :: cs =>
    if c.1 = n then i :: fieldIndicesFrom n (i + 1) cs else fieldIndicesFrom n (i + 1) cs

/-- Go `schema.FieldIndices(n)`: the indices of the fields named `n`. -/
def Record.FieldIndices (r : Record) (n : GoString) : List Nat :=
  fieldIndicesFrom n 0 r.columns

/-- Go `record.Column(i)`; `none` where Go panics. -/
def Record.Column (r : Record) (i : Nat) : Option ArrowArray :=
  (r.columns[i]?).map Prod.snd

/-! ## The query service -/

/-- The decoding of the bytes of `TableArrow.Record` by the Arrow IPC reader:
`ipc.NewReader` fails, or the stream yields these records in order. -/
inductive ArrowIPC where
  | readerError (err : Error)
  | records (rs : List Record)

/-- The request mode; the exporter only sends `MODE_MERGE`. -/
inductive QueryMode where
  | MODE_MERGE
  deriving DecidableEq, Repr

/-- The report type; the exporter only asks for `REPORT_TYPE_TABLE_ARROW`. -/
inductive ReportType where
  | REPORT_TYPE_TABLE_ARROW
  deriving DecidableEq, Repr

/-- The `QueryRequest` of a merge query; `Start` and `End` are instants in
nanoseconds since the epoch. -/
structure QueryRequest where
  Mode : QueryMode
  Query : GoString
  Start : Int
  End : Int
  Report : ReportType
  deriving DecidableEq, Repr

/-- The `QueryResponse`: the total and, when present, the Arrow table. -/
structure QueryResponse where
  Total : Int
  TableArrow : Option ArrowIPC

/-! ## runCollection (main.go, lines 205-352) -/

/-- How a Go function call ends: it returns a value, returns an error, or panics. -/
inductive Exec (α : Type) where
  | ok (a : α)
  | error (err : Error)
  | panic
  deriving DecidableEq, Repr

/-- The typed columns bound by lines 262-280: the values of `cumulative` and `flat`,
the index values of `functionName` and the strings of `functionNameDict`. -/
structure Columns where
  cumulative : List Int
  flat : List Int
  functionName : List Nat
  functionNameDict : List GoString
  deriving DecidableEq, Repr

/-- Lines 244-280 of `runCollection`: resolve the three columns and check their types. -/
def extractColumns (record : Record) : Exec Columns :=
  match record.FieldIndices (ascii "cumulative") with
  | [cumulativeFieldIndex] =>
    match record.FieldIndices (ascii "flat") with
    | [flatFieldIndex] =>
      match record.FieldIndices (ascii "function_name") with
      | [functionNameFieldIndex] =>
        match record.Column cumulativeFieldIndex with
        | none => .panic
        | some (.int64 cumulative) =>
          match record.Column flatFieldIndex with
          | none => .panic
          | some (.int64 flat) =>
            match record.Column functionNameFieldIndex with
            | none => .panic
            | some (.dictionary functionName dict) =>
              match dict with
              | .string functionNameDict =>
                .ok ⟨cumulative, flat, functionName, functionNameDict⟩
              | _ => .error (ascii "function_name dictionary is not string")
            | some _ => .error (ascii "function_name field is not dictionary")
          | some _ => .error (ascii "flat field is not int64")
        | some _ => .error (ascii "cumulative field is not int64")
      | _ => .error (ascii "function_name field is not found")
    | _ => .error (ascii "flat field is not found")
  | _ => .error (ascii "cumulative field is not found")

/-- The root series of lines 284-299. -/
def rootSeries (q : QueryConfig) (promTimestamp : Int) (total : Int) : TimeSeries :=
  { Labels := [⟨ascii "__name__", ascii "profile_exporter_root_cumulative_value"⟩,
               ⟨ascii "query", q.Query⟩,
               ⟨ascii "query_name", q.Name⟩],
    Samples := [⟨promTimestamp, float64 total⟩] }

/-- The first series appended at lines 306-323. -/
def flatSeries (q : QueryConfig) (promTimestamp : Int) (functionName : GoString)
    (flat : Int) : TimeSeries :=
  { Labels := [⟨ascii "__name__", ascii "profile_exporter_flat_value"⟩,
               ⟨ascii "query", q.Query⟩,
               ⟨ascii "query_name", q.Name⟩,
               ⟨ascii "function_name", functionName⟩],
    Samples := [⟨promTimestamp, float64 flat⟩] }

/-- The second series appended at lines 324-342. -/
def cumulativeSeries (q : QueryConfig) (promTimestamp : Int) (functionName : GoString)
    (cumulative : Int) : TimeSeries :=
  { Labels := [⟨ascii "__name__", ascii "profile_exporter_cumulative_value"⟩,
               ⟨ascii "query", q.Query⟩,
               ⟨ascii "query_name", q.Name⟩,
               ⟨ascii "function_name", functionName⟩],
    Samples := [⟨promTimestamp, float64 cumulative⟩] }

/-- The inner loop of lines 304-344 over the remaining matchers of row `i`;
`none` where `flat.Value(i)` or `cumulative.Value(i)` panics. -/
def appendMatches (q : QueryConfig) (promTimestamp : Int) (cols : Columns) (i : Nat)
    (functionName : GoString) : List FunctionMatcher → List TimeSeries → Option (List TimeSeries)
  | [], series => some series
  | m :: ms, series =>
    if strings.Contains functionName m.Contains then
      match cols.flat[i]?, cols.cumulative[i]? with
      | some f, some c =>
        appendMatches q promTimestamp cols i functionName ms
          (series ++ [flatSeries q promTimestamp functionName f,
                      cumulativeSeries q promTimestamp functionName c])
      | _, _ => none
    else appendMatches q promTimestamp cols i functionName ms series

/-- The outer loop of lines 302-345 over the remaining row indices; `none` where
`GetValueIndex(i)`, `functionNameDict.Value` or the inner loop panics. -/
def scanRows (q : QueryConfig) (promTimestamp : Int) (cols : Columns) :
    List Nat → List TimeSeries → Option (List TimeSeries)
  | [], series => some series
  | i :: rows, series =>
    match cols.functionName[i]? with
    | none => none
    | some k =>
      match cols.functionNameDict[k]? with
      | none => none
      | some functionName =>
        match appendMatches q promTimestamp cols i functionName q.Matchers series with
        | none => none
        | some series1 => scanRows q promTimestamp cols rows series1

/-- How `runCollection` ends. -/
inductive Result where
  | nil
  | error (err : Error)
  | panic
  deriving DecidableEq, Repr

/-- What one call of `runCollection` does: the request it passes to the query client,
the arguments of its calls of `Send` in order, and how it ends. -/
structure Outcome where
  request : QueryRequest
  sent : List WriteRequest
  result : Result
  deriving DecidableEq, Repr

/-- The request of lines 212-222: a merge query that asks for an Arrow table over the
window from `now.Add(-time.Duration(q.Duration))` to `now`; the negation is that of an
`int64` and wraps. -/
def queryRequest (now : Int) (q : QueryConfig) : QueryRequest :=
  { Mode := .MODE_MERGE, Query := q.Query, Start := now + wrapInt64 (-q.Duration),
    End := now, Report := .REPORT_TYPE_TABLE_ARROW }

/-- Go `runCollection`, with `now` the value of `time.Now()` in nanoseconds since the
epoch, `queryClient` the behaviour of `queryClient.Query` and `Send` the behaviour of
`remoteWriteClient.Send`. -/
def runCollection (now : Int) (q : QueryConfig)
    (queryClient : QueryRequest → Except Error QueryResponse)
    (Send : WriteRequest → Option Error) : Outcome :=
  let req := queryRequest now q
  match queryClient req with
  | .error err => ⟨req, [], .error (ascii "query profiling data: " ++ err)⟩
  | .ok resp =>
    match resp.TableArrow with
    | none => ⟨req, [], .error (ascii "no arrow table returned")⟩
    | some (.readerError err) => ⟨req, [], .error (ascii "create ipc reader: " ++ err)⟩
    | some (.records []) => ⟨req, [], .error (ascii "no records returned")⟩
    | some (.records (record :: _)) =>
      match extractColumns record with
      | .error err => ⟨req, [], .error err⟩
      | .panic => ⟨req, [], .panic⟩
      | .ok cols =>
        let promTimestamp := Int.tdiv now 1000000
        match scanRows q promTimestamp cols (List.range record.numRows)
            [rootSeries q promTimestamp resp.Total] with
        | none => ⟨req, [], .panic⟩
        | some series =>
          let result : WriteRequest := ⟨series⟩
          match Send result with
          | some err => ⟨req, [result], .error (ascii "write to remote write: " ++ err)⟩
          | none => ⟨req, [result], .nil⟩

/-! ## runCollectionLoop (main.go, lines 179-203) -/

/-- What one iteration of the `select` of `runCollectionLoop` receives: the context is
done, or the ticker fires; a tick carries the time and the behaviour of the query
service and of `Send` during that cycle. -/
inductive Event where
  | done
  | tick (now : Int) (queryClient : QueryRequest → Except Error QueryResponse)
      (Send : WriteRequest → Option Error)

/-- Where `runCollectionLoop` stands after a sequence of events: blocked in `select`
waiting for the next event, returned, or stopped by a panic (of `time.NewTicker` or of a
cycle); `logged` are the errors passed to `logger.Error` so far. -/
inductive LoopState where
  | waiting (logged : List Error)
  | returned (err : Option Error) (logged : List Error)
  | panicked (logged : List Error)
  deriving DecidableEq, Repr

/-- The `for` loop of lines 188-202 over the events its `select` receives, in order,
with the errors logged so far. -/
def selectLoop (q : QueryConfig) : List Event → List Error → LoopState
  | [], logged => .waiting logged
  | .done :: _, logged => .returned none logged
  | .tick now queryClient Send :: events, logged =>
    match (runCollection now q queryClient Send).result with
    | .nil => selectLoop q events logged
    | .error err => selectLoop q events (logged ++ [err])
    | .panic => .panicked logged

/-- Go `runCollectionLoop` over the events its `select` receives, in order:
`time.NewTicker(time.Duration(q.Duration))` panics for a duration that is not positive,
and otherwise the loop runs. -/
def runCollectionLoop (q : QueryConfig) (events : List Event) : LoopState :=
  if q.Duration ≤ 0 then .panicked [] else selectLoop q events []

/-! ## The remote-write client (remote_write.go) -/

/-- Go `maxErrMsgLen`. -/
def maxErrMsgLen : Nat := 1024

/-- The `http.RoundTripper` values `NewClient` can build: the transport of the client made
by `NewClientFromConfig`, and the wrappers around another round-tripper. -/
inductive RoundTripper (H S A : Type) where
  | base (conf : H)
  | sigV4 (conf : S) (next : RoundTripper H S A)
  | azureAD (conf : A) (next : RoundTripper H S A)
  | injectHeaders (headers : List (GoString × GoString)) (next : RoundTripper H S A)

/-- Go `ClientConfig` over the configuration types `H`, `S` and `A` of the HTTP client, of
request signing and of the managed identity. `URL` stands for `conf.URL.String()` of a
non-nil URL, a nil `SigV4Config` or `AzureADConfig` is `none`, and the `Headers` map is
the list of its entries. -/
structure ClientConfig (H S A : Type) where
  URL : GoString
  Timeout : Int
  HTTPClientConfig : H
  SigV4Config : Option S
  AzureADConfig : Option A
  Headers : List (GoString × GoString)

/-- Go `Client`; `client` is the transport of its `http.Client`. The scratch buffers `buf`
and `pBuf` hold no state that a call can observe and are left out. -/
structure Client (H S A : Type) where
  client : RoundTripper H S A
  urlString : GoString
  timeout : Int

/-- An HTTP request as `sendReq` builds it; `Header` lists the header fields in the order
they were set and `Timeout` is the timeout of its context. -/
structure Request where
  Method : GoString
  URL : GoString
  Header : List (GoString × GoString)
  Body : GoString
  Timeout : Int
  deriving DecidableEq, Repr

/-- An HTTP response: `StatusCode`, the status line text `Status` and the whole body. -/
structure Response where
  StatusCode : Int
  Status : GoString
  Body : GoString
  deriving DecidableEq, Repr

/-- The libraries the client calls: which configurations the constructors of the
transports reject, the protobuf and snappy encoders, the URL check of `http.NewRequest`
and what `client.Do` returns for a request sent through a transport. -/
structure Env (H S A : Type) where
  clientFromConfigErr : H → Option Error
  sigV4Err : S → Option Error
  azureADErr : A → Option Error
  Marshal : WriteRequest → Except Error GoString
  snappyEncode : GoString → GoString
  newRequestErr : GoString → Option Error
  Do : RoundTripper H S A → Request → Except Error Response

/-- Go `config_util.NewClientFromConfig`: the transport of the new client, or an error. -/
def Env.NewClientFromConfig {H S A : Type} (env : Env H S A) (conf : H) :
    Except Error (RoundTripper H S A) :=
  match env.clientFromConfigErr conf with
  | some err => .error err
  | none => .ok (.base conf)

/-- Go `sigv4.NewSigV4RoundTripper`. -/
def Env.NewSigV4RoundTripper {H S A : Type} (env : Env H S A) (conf : S)
    (next : RoundTripper H S A) :
    Except Error (RoundTripper H S A) :=
  match env.sigV4Err conf with
  | some err => .error err
  | none => .ok (.sigV4 conf next)

/-- Go `azuread.NewAzureADRoundTripper`. -/
def Env.NewAzureADRoundTripper {H S A : Type} (env : Env H S A) (conf : A)
    (next : RoundTripper H S A) :
    Except Error (RoundTripper H S A) :=
  match env.azureADErr conf with
  | some err => .error err
  | none => .ok (.azureAD conf next)

/-- Go `newInjectHeadersRoundTripper`. -/
def newInjectHeadersRoundTripper {H S A : Type} (h : List (GoString × GoString))
    (underlyingRT : RoundTripper H S A) : RoundTripper H S A :=
  .injectHeaders h underlyingRT

/-- Go `NewClient`. -/
def NewClient {H S A : Type} (env : Env H S A) (conf : ClientConfig H S A) :
    Except Error (Client H S A) := do
  let transport ← env.NewClientFromConfig conf.HTTPClientConfig
  let t := transport
  let t ← match conf.SigV4Config with
    | some sigV4Config => env.NewSigV4RoundTripper sigV4Config transport
    | none => pure t
  let t ← match conf.AzureADConfig with
    | some azureADConfig => env.NewAzureADRoundTripper azureADConfig transport
    | none => pure t
  let t := if conf.Headers.length > 0 then newInjectHeadersRoundTripper conf.Headers t else t
  pure { client := t, urlString := conf.URL, timeout := conf.Timeout }

/-- Go `dropCR` of package `bufio`: drop one trailing carriage return. -/
def dropCR (data : GoString) : GoString :=
  if data.getLast? = some 13 then data.dropLast else data

/-- The first token of a `bufio.Scanner` with the default split function `ScanLines` over a
reader that yields `data` and then ends: `none` when `Scan()` returns false (no data),
else the bytes before the first newline, or all of them when there is none, without one
trailing carriage return. -/
def scanLine (data : GoString) : Option GoString :=
  if data = [] then none else some (dropCR (data.takeWhile (fun b => b != 10)))

/-- The request of lines 129-141 of `sendReq`: a POST of `req` to the URL of the client
with the three remote-write headers, under the timeout of the client. -/
def Client.httpRequest {H S A : Type} (c : Client H S A) (req : GoString) : Request :=
  { Method := ascii "POST", URL := c.urlString,
    Header := [(ascii "Content-Encoding", ascii "snappy"),
               (ascii "Content-Type", ascii "application/x-protobuf"),
               (ascii "X-Prometheus-Remote-Write-Version", ascii "0.1.0")],
    Body := req, Timeout := c.timeout }

/-- Go `Client.sendReq`. -/
def Client.sendReq {H S A : Type} (env : Env H S A) (c : Client H S A) (req : GoString) :
    Option Error :=
  match env.newRequestErr c.urlString with
  | some err => some err
  | none =>
    let httpReq := c.httpRequest req
    match env.Do c.client httpReq with
    | .error err => some (ascii "error sending request: " ++ err)
    | .ok httpResp =>
      if Int.tdiv httpResp.StatusCode 100 ≠ 2 then
        let line :=
          match scanLine (httpResp.Body.take maxErrMsgLen) with
          | some text => text
          | none => []
        some (ascii "server returned HTTP status " ++ httpResp.Status ++ ascii ": " ++ line)
      else none

/-- Go `Client.Send`. -/
def Client.Send {H S A : Type} (env : Env H S A) (c : Client H S A) (wreq : WriteRequest) :
    Option Error :=
  match env.Marshal wreq with
  | .error err => some err
  | .ok bytes => c.sendReq env (env.snappyEncode bytes)

/-! ## Notions of the specification -/

/-- The function name of row `i`: the dictionary string at the index value of the row. -/
def Columns.functionNameAt (cols : Columns) (i : Nat) : Option GoString :=
  match cols.functionName[i]? with
  | some k => cols.functionNameDict[k]?
  | none => none

/-- Whether the function name of row `p.1` contains the substring of matcher `p.2`. -/
def Columns.hit (cols : Columns) (p : Nat × FunctionMatcher) : Bool :=
  match cols.functionNameAt p.1 with
  | some name => strings.Contains name p.2.Contains
  | none => false

/-- The number of pairs of a row index below `numRows` and an entry of the matcher list
such that the function name of the row contains the substring of the matcher. -/
def matchCount (q : QueryConfig) (cols : Columns) (numRows : Nat) : Nat :=
  (List.product (List.range numRows) q.Matchers).countP cols.hit

/-- The metric name of a series: the value of its label named `__name__`. -/
def TimeSeries.metricName (s : TimeSeries) : Option GoString :=
  (s.Labels.find? (fun l => decide (l.Name = ascii "__name__"))).map Label.Value

/-- The columns of a record whose field is named `n`. -/
def Record.named (r : Record) (n : GoString) : List ArrowArray :=
  (r.columns.filter (fun c => decide (c.1 = n))).map Prod.snd

/-- Whether an array is an `*array.Int64`. -/
def ArrowArray.isInt64 : ArrowArray → Bool
  | .int64 _ => true
  | _ => false

/-- Whether a round-tripper chain contains the request-signing round-tripper. -/
def RoundTripper.hasSigV4 {H S A : Type} : RoundTripper H S A → Bool
  | .base _ => false
  | .sigV4 _ _ => true
  | .azureAD _ next => next.hasSigV4
  | .injectHeaders _ next => next.hasSigV4

/-- Whether a round-tripper chain contains the managed-identity round-tripper. -/
def RoundTripper.hasAzureAD {H S A : Type} : RoundTripper H S A → Bool
  | .base _ => false
  | .sigV4 _ next => next.hasAzureAD
  | .azureAD _ _ => true
  | .injectHeaders _ next => next.hasAzureAD

/-- Whether the outermost round-tripper of a chain is the one that injects headers. -/
def RoundTripper.injectsHeaders {H S A : Type} : RoundTripper H S A → Bool
  | .injectHeaders _ _ => true
  | _ => false

/-- The errors the cycles of the tick events of a sequence return, in order. -/
def cycleErrors (q : QueryConfig) : List Event → List Error
  | [] => []
  | .done :: events => cycleErrors q events
  | .tick now queryClient Send :: events =>
    match (runCollection now q queryClient Send).result with
    | .error err => err :: cycleErrors q events
    | _ => cycleErrors q events

/-- Whether an event is a tick whose cycle returns, with or without an error. -/
def Event.cycleReturns (q : QueryConfig) : Event → Prop
  | .done => False
  | .tick now queryClient Send => (runCollection now q queryClient Send).result ≠ .panic

/-- Every series of the list has exactly one sample, stamped `ts`. -/
def StampedAt (ts : Int) (series : List TimeSeries) : Prop :=
  ∀ s ∈ series, ∃ v, s.Samples = [⟨ts, v⟩]

/-! ## Auxiliary functions of the proofs -/

/-- The type assertions of lines 262-280 on the three resolved columns. -/
def assertColumns (a1 a2 a3 : ArrowArray) : Exec Columns :=
  match a1 with
  | .int64 cumulative =>
    match a2 with
    | .int64 flat =>
      match a3 with
      | .dictionary functionName (.string functionNameDict) =>
        .ok ⟨cumulative, flat, functionName, functionNameDict⟩
      | .dictionary _ _ => .error (ascii "function_name dictionary is not string")
      | _ => .error (ascii "function_name field is not dictionary")
    | _ => .error (ascii "flat field is not int64")
  | _ => .error (ascii "cumulative field is not int64")

/-- The function name of row `i`, empty where the row has none. -/
def Columns.nameOf (cols : Columns) (i : Nat) : GoString := (cols.functionNameAt i).getD []

/-- The flat value of row `i`, zero where the row has none. -/
def Columns.flatOf (cols : Columns) (i : Nat) : Int := (cols.flat[i]?).getD 0

/-- The cumulative value of row `i`, zero where the row has none. -/
def Columns.cumulativeOf (cols : Columns) (i : Nat) : Int := (cols.cumulative[i]?).getD 0

/-- The series the row scan appends for the rows `rows`, given the name and the two
values of every row. -/
def expectedSeries (q : QueryConfig) (ts : Int) (name : Nat → GoString)
    (flat cumulative : Nat → Int) (rows : List Nat) : List TimeSeries :=
  rows.flatMap (fun i =>
    (q.Matchers.filter (fun m => strings.Contains (name i) m.Contains)).flatMap
      (fun _ => [flatSeries q ts (name i) (flat i), cumulativeSeries q ts (name i) (cumulative i)]))

/-! ## Example inputs -/

/-- The time of the example cycle, in nanoseconds since the epoch. -/
def exampleNow : Int := 1700000000123456789

/-- A query with the single matcher `foo` and a window of ten seconds. -/
def exampleQuery : QueryConfig :=
  { Name := ascii "cpu", Query := ascii "parca_agent_cpu", Duration := 10000000000,
    Matchers := [⟨ascii "foo"⟩] }

/-- A record with three rows named `foo`, `bar` and `foobar`. -/
def exampleRecord : Record :=
  { columns := [(ascii "function_name",
                  .dictionary [0, 1, 2] (.string [ascii "foo", ascii "bar", ascii "foobar"])),
                (ascii "flat", .int64 [1, 2, 3]),
                (ascii "cumulative", .int64 [10, 20, 30])],
    numRows := 3 }

/-- The typed columns of `exampleRecord`. -/
def exampleColumns : Columns :=
  { cumulative := [10, 20, 30], flat := [1, 2, 3], functionName := [0, 1, 2],
    functionNameDict := [ascii "foo", ascii "bar", ascii "foobar"] }

/-- A response with total 1000 whose table decodes to `exampleRecord`. -/
def exampleResponse : QueryResponse := ⟨1000, some (.records [exampleRecord])⟩

/-- The request `runCollection` hands to `Send` on the example inputs. -/
def exampleWriteRequest : WriteRequest :=
  ⟨[rootSeries exampleQuery 1700000000123 1000,
    flatSeries exampleQuery 1700000000123 (ascii "foo") 1,
    cumulativeSeries exampleQuery 1700000000123 (ascii "foo") 10,
    flatSeries exampleQuery 1700000000123 (ascii "foobar") 3,
    cumulativeSeries exampleQuery 1700000000123 (ascii "foobar") 30]⟩

/-- A record without a `flat` column. -/
def recordWithoutFlat : Record :=
  { columns := [(ascii "function_name", .dictionary [0] (.string [ascii "main.work"])),
                (ascii "cumulative", .int64 [400])],
    numRows := 1 }

/-- A record whose `function_name` column is a plain string array. -/
def plainStringRecord : Record :=
  { columns := [(ascii "function_name", .string [ascii "main.work"]),
                (ascii "flat", .int64 [100]),
                (ascii "cumulative", .int64 [400])],
    numRows := 1 }

/-- A library environment without configuration types in which every constructor and
encoder succeeds and the transport answers every request with `resp`. -/
def exampleEnv (resp : Response) : Env Unit Unit Unit :=
  { clientFromConfigErr := fun _ => none,
    sigV4Err := fun _ => none,
    azureADErr := fun _ => none,
    Marshal := fun _ => .ok [],
    snappyEncode := fun b => b,
    newRequestErr := fun _ => none,
    Do := fun _ _ => .ok resp }

/-- A client that posts to a local endpoint with a timeout of thirty seconds. -/
def exampleClient : Client Unit Unit Unit :=
  { client := .base (), urlString := ascii "http://localhost:9090/api/v1/write",
    timeout := 30000000000 }

/-- The response of the specification example: status 503 with body `overloaded`. -/
def overloadedResponse : Response :=
  { StatusCode := 503, Status := ascii "503 Service Unavailable", Body := ascii "overloaded" }

/-- A response with status 503 whose body has two lines, `over` and `loaded`. -/
def twoLineResponse : Response :=
  { StatusCode := 503, Status := ascii "503 Service Unavailable",
    Body := ascii "over" ++ [10] ++ ascii "loaded" }

/-- Three ticks: the query service fails, then the remote write endpoint fails, then the
cycle succeeds. -/
def exampleTicks : List Event :=
  [.tick exampleNow (fun _ => .error (ascii "unavailable")) (fun _ => none),
   .tick (exampleNow + 10000000000) (fun _ => .ok exampleResponse)
     (fun _ => some (ascii "server returned HTTP status 503 Service Unavailable: overloaded")),
   .tick (exampleNow + 20000000000) (fun _ => .ok exampleResponse) (fun _ => none)]

/-- A configuration with both a `SigV4Config` and an `AzureADConfig` and no headers. -/
def bothAuthConfig : ClientConfig Unit Unit Unit :=
  { URL := ascii "http://localhost:9090/api/v1/write", Timeout := 30000000000,
    HTTPClientConfig := (), SigV4Config := some (), AzureADConfig := some (), Headers := [] }

/-- A configuration with a `SigV4Config` only, and one extra header. -/
def sigV4Config : ClientConfig Unit Unit Unit :=
  { URL := ascii "http://localhost:9090/api/v1/write", Timeout := 30000000000,
    HTTPClientConfig := (), SigV4Config := some (), AzureADConfig := none,
    Headers := [(ascii "X-Scope-OrgID", ascii "demo")] }

/-! ## Library functions -/

theorem startsWith_iff (s t : GoString) : startsWith s t = true ↔ ∃ r, s = t ++ r := by
  induction t generalizing s with
  | nil => simp [startsWith]
  | cons b t ih =>
    cases s with
    | nil => simp [startsWith]
    | cons a s =>
      simp only [startsWith, Bool.and_eq_true, beq_iff_eq, ih, List.cons_append,
        List.cons.injEq]
      constructor
      · rintro ⟨rfl, r, rfl⟩; exact ⟨r, rfl, rfl⟩
      · rintro ⟨r, rfl, rfl⟩; exact ⟨rfl, r, rfl⟩

theorem strings_Contains_iff (s substr : GoString) :
    strings.Contains s substr = true ↔ ∃ l r, s = l ++ substr ++ r := by
  induction s with
  | nil =>
    simp only [strings.Contains, startsWith_iff]
    constructor
    · rintro ⟨r, h⟩; exact ⟨[], r, by simpa using h⟩
    · rintro ⟨l, r, h⟩
      have h1 := h.symm
      simp only [List.append_eq_nil] at h1
      exact ⟨[], by simp [h1.1.2]⟩
  | cons a s ih =>
    simp only [strings.Contains, Bool.or_eq_true, startsWith_iff, ih]
    constructor
    · rintro (⟨r, h⟩ | ⟨l, r, h⟩)
      · exact ⟨[], r, by simpa using h⟩
      · exact ⟨a :: l, r, by simp [h]⟩
    · rintro ⟨l, r, h⟩
      cases l with
      | nil => left; exact ⟨r, by simpa using h⟩
      | cons x l =>
        right
        simp only [List.cons_append, List.cons.injEq] at h
        exact ⟨l, r, h.2⟩

theorem float64_exact (v : Int) (h : v.natAbs < 2 ^ 53) : float64 v = v := by
  have hs : float64Shift v.natAbs = 0 := by
    unfold float64Shift
    rw [List.length_eq_zero, List.filter_eq_nil_iff]
    intro e _
    have : 2 ^ 53 ≤ 2 ^ (53 + e) := Nat.pow_le_pow_right (by decide) (by omega)
    simp only [decide_eq_true_eq]
    omega
  unfold float64
  simp only [hs, pow_zero, Nat.div_one, Nat.mod_one, mul_zero, mul_one]
  simp
  exact Int.sign_mul_abs v

theorem wrapInt64_of_range (x : Int) (h1 : -2 ^ 63 ≤ x) (h2 : x < 2 ^ 63) :
    wrapInt64 x = x := by
  unfold wrapInt64
  omega

theorem queryRequest_window (now : Int) (q : QueryConfig)
    (h1 : -2 ^ 63 < q.Duration) (h2 : q.Duration < 2 ^ 63) :
    (queryRequest now q).Start = now - q.Duration ∧ (queryRequest now q).End = now := by
  refine ⟨?_, rfl⟩
  show now + wrapInt64 (-q.Duration) = now - q.Duration
  rw [wrapInt64_of_range (-q.Duration) (by omega) (by omega)]
  omega

/-! ## Column resolution -/

theorem fieldIndicesFrom_length (n : GoString) (cs : List (GoString × ArrowArray)) (i : Nat) :
    (fieldIndicesFrom n i cs).length = (cs.filter (fun c => decide (c.1 = n))).length := by
  induction cs generalizing i with
  | nil => simp [fieldIndicesFrom]
  | cons c cs ih =>
    by_cases h : c.1 = n
    · simp [fieldIndicesFrom, h, ih]
    · simp [fieldIndicesFrom, h, ih]

theorem fieldIndicesFrom_single (n : GoString) (cs : List (GoString × ArrowArray)) (i j : Nat)
    (h : fieldIndicesFrom n i cs = [j]) :
    ∃ a, i ≤ j ∧ (cs[j - i]?).map Prod.snd = some a ∧
      (cs.filter (fun c => decide (c.1 = n))).map Prod.snd = [a] := by
  induction cs generalizing i with
  | nil => simp [fieldIndicesFrom] at h
  | cons c cs ih =>
    by_cases hc : c.1 = n
    · simp only [fieldIndicesFrom, hc, if_true, List.cons.injEq] at h
      obtain ⟨hij, hrest⟩ := h
      have hlen := fieldIndicesFrom_length n cs (i + 1)
      rw [hrest] at hlen
      have hnil : cs.filter (fun c => decide (c.1 = n)) = [] :=
        List.eq_nil_of_length_eq_zero hlen.symm
      refine ⟨c.2, by omega, ?_, ?_⟩
      · subst hij; simp
      · simp [List.filter_cons, hc, hnil]
    · simp only [fieldIndicesFrom, hc, if_false] at h
      obtain ⟨a, hle, hget, hfil⟩ := ih (i + 1) h
      refine ⟨a, by omega, ?_, ?_⟩
      · have : j - i = (j - (i + 1)) + 1 := by omega
        rw [this]; simpa using hget
      · simpa [List.filter_cons, hc] using hfil

theorem FieldIndices_length (r : Record) (n : GoString) :
    (r.FieldIndices n).length = (r.named n).length := by
  simp [Record.FieldIndices, Record.named, fieldIndicesFrom_length]

theorem FieldIndices_single (r : Record) (n : GoString) (j : Nat)
    (h : r.FieldIndices n = [j]) : ∃ a, r.Column j = some a ∧ r.named n = [a] := by
  obtain ⟨a, _, hget, hfil⟩ := fieldIndicesFrom_single n r.columns 0 j h
  exact ⟨a, by simpa [Record.Column] using hget, by simpa [Record.named] using hfil⟩

theorem FieldIndices_cases (r : Record) (n : GoString) :
    (∃ j a, r.FieldIndices n = [j] ∧ r.Column j = some a ∧ r.named n = [a]) ∨
    ((r.named n).length ≠ 1 ∧
      (r.FieldIndices n = [] ∨ ∃ j k l, r.FieldIndices n = j :: k :: l)) := by
  have hlen := FieldIndices_length r n
  cases hfi : r.FieldIndices n with
  | nil => right; rw [hfi] at hlen; exact ⟨by simp at hlen; omega, Or.inl rfl⟩
  | cons j t =>
    cases t with
    | nil =>
      left
      obtain ⟨a, h1, h2⟩ := FieldIndices_single r n j hfi
      exact ⟨j, a, rfl, h1, h2⟩
    | cons k l =>
      right; rw [hfi] at hlen
      exact ⟨by simp at hlen; omega, Or.inr ⟨j, k, l, rfl⟩⟩

theorem extractColumns_resolved (r : Record) (a1 a2 a3 : ArrowArray)
    (h1 : r.named (ascii "cumulative") = [a1]) (h2 : r.named (ascii "flat") = [a2])
    (h3 : r.named (ascii "function_name") = [a3]) :
    extractColumns r = assertColumns a1 a2 a3 := by
  rcases FieldIndices_cases r (ascii "cumulative") with ⟨j1, b1, hj1, hc1, hn1⟩ | ⟨hne, _⟩
  swap
  · simp [h1] at hne
  rcases FieldIndices_cases r (ascii "flat") with ⟨j2, b2, hj2, hc2, hn2⟩ | ⟨hne, _⟩
  swap
  · simp [h2] at hne
  rcases FieldIndices_cases r (ascii "function_name") with ⟨j3, b3, hj3, hc3, hn3⟩ | ⟨hne, _⟩
  swap
  · simp [h3] at hne
  rw [h1] at hn1; rw [h2] at hn2; rw [h3] at hn3
  simp only [List.cons.injEq, and_true] at hn1 hn2 hn3
  subst hn1 hn2 hn3
  unfold extractColumns assertColumns
  simp only [hj1, hj2, hj3, hc1, hc2, hc3]
  cases a1 <;> cases a2 <;> cases a3 <;> try rfl
  case int64.int64.dictionary c f idx dict => cases dict <;> rfl

theorem length_eq_one_cases {α : Type} (l : List α) : (∃ a, l = [a]) ∨ l.length ≠ 1 := by
  cases l with
  | nil => right; simp
  | cons a t =>
    cases t with
    | nil => left; exact ⟨a, rfl⟩
    | cons b u => right; simp

theorem extractColumns_not_found (r : Record)
    (h : (r.named (ascii "cumulative")).length ≠ 1 ∨ (r.named (ascii "flat")).length ≠ 1 ∨
      (r.named (ascii "function_name")).length ≠ 1) :
    ∃ err, extractColumns r = .error err := by
  rcases FieldIndices_cases r (ascii "cumulative") with ⟨j1, b1, hj1, hc1, hn1⟩ | ⟨_, hfi⟩
  swap
  · rcases hfi with hfi | ⟨j, k, l, hfi⟩ <;>
      exact ⟨ascii "cumulative field is not found", by unfold extractColumns; simp only [hfi]⟩
  rcases FieldIndices_cases r (ascii "flat") with ⟨j2, b2, hj2, hc2, hn2⟩ | ⟨_, hfi⟩
  swap
  · rcases hfi with hfi | ⟨j, k, l, hfi⟩ <;>
      exact ⟨ascii "flat field is not found", by unfold extractColumns; simp only [hj1, hfi]⟩
  rcases FieldIndices_cases r (ascii "function_name") with ⟨j3, b3, hj3, hc3, hn3⟩ | ⟨_, hfi⟩
  swap
  · rcases hfi with hfi | ⟨j, k, l, hfi⟩ <;>
      exact ⟨ascii "function_name field is not found",
        by unfold extractColumns; simp only [hj1, hj2, hfi]⟩
  simp [hn1, hn2, hn3] at h

theorem assertColumns_ok_iff (a1 a2 a3 : ArrowArray) (cols : Columns) :
    assertColumns a1 a2 a3 = .ok cols ↔
      a1 = .int64 cols.cumulative ∧ a2 = .int64 cols.flat ∧
      a3 = .dictionary cols.functionName (.string cols.functionNameDict) := by
  obtain ⟨c, f, idx, d⟩ := cols
  cases a1 <;> cases a2 <;> cases a3 <;> simp [assertColumns]
  case int64.int64.dictionary c1 f1 idx1 dict =>
    cases dict <;> simp [assertColumns]

theorem extractColumns_ok_iff (r : Record) (cols : Columns) :
    extractColumns r = .ok cols ↔
      r.named (ascii "cumulative") = [.int64 cols.cumulative] ∧
      r.named (ascii "flat") = [.int64 cols.flat] ∧
      r.named (ascii "function_name") =
        [.dictionary cols.functionName (.string cols.functionNameDict)] := by
  constructor
  · intro h
    rcases length_eq_one_cases (r.named (ascii "cumulative")) with ⟨a1, h1⟩ | h1
    swap
    · obtain ⟨err, he⟩ := extractColumns_not_found r (Or.inl h1)
      rw [he] at h; cases h
    rcases length_eq_one_cases (r.named (ascii "flat")) with ⟨a2, h2⟩ | h2
    swap
    · obtain ⟨err, he⟩ := extractColumns_not_found r (Or.inr (Or.inl h2))
      rw [he] at h; cases h
    rcases length_eq_one_cases (r.named (ascii "function_name")) with ⟨a3, h3⟩ | h3
    swap
    · obtain ⟨err, he⟩ := extractColumns_not_found r (Or.inr (Or.inr h3))
      rw [he] at h; cases h
    rw [extractColumns_resolved r a1 a2 a3 h1 h2 h3, assertColumns_ok_iff] at h
    obtain ⟨e1, e2, e3⟩ := h
    rw [h1, h2, h3, e1, e2, e3]
    exact ⟨rfl, rfl, rfl⟩
  · rintro ⟨h1, h2, h3⟩
    rw [extractColumns_resolved r _ _ _ h1 h2 h3]
    rfl

theorem extractColumns_error_of_bad (record : Record)
    (hbad : (record.named (ascii "cumulative")).length ≠ 1 ∨
      (record.named (ascii "flat")).length ≠ 1 ∨
      (record.named (ascii "function_name")).length ≠ 1 ∨
      (∃ a ∈ record.named (ascii "cumulative"), a.isInt64 = false) ∨
      (∃ a ∈ record.named (ascii "flat"), a.isInt64 = false)) :
    ∃ err, extractColumns record = .error err := by
  rcases length_eq_one_cases (record.named (ascii "cumulative")) with ⟨a1, h1⟩ | h1
  swap
  · exact extractColumns_not_found record (Or.inl h1)
  rcases length_eq_one_cases (record.named (ascii "flat")) with ⟨a2, h2⟩ | h2
  swap
  · exact extractColumns_not_found record (Or.inr (Or.inl h2))
  rcases length_eq_one_cases (record.named (ascii "function_name")) with ⟨a3, h3⟩ | h3
  swap
  · exact extractColumns_not_found record (Or.inr (Or.inr h3))
  rw [extractColumns_resolved record a1 a2 a3 h1 h2 h3]
  rw [h1, h2, h3] at hbad
  simp only [List.length_singleton, ne_eq, not_true_eq_false, List.mem_singleton,
    exists_eq_left, false_or] at hbad
  rcases hbad with hb | hb
  · cases a1 <;> simp [ArrowArray.isInt64] at hb <;> exact ⟨_, rfl⟩
  · cases a2 <;> simp [ArrowArray.isInt64] at hb <;> cases a1 <;> exact ⟨_, rfl⟩

/-! ## Well-formed records -/

theorem named_wellFormed (r : Record) (n : GoString) (a : ArrowArray)
    (hwf : r.wellFormed = true) (ha : a ∈ r.named n) :
    a.wellFormed = true ∧ a.Len = r.numRows := by
  simp only [Record.named, List.mem_map, List.mem_filter] at ha
  obtain ⟨c, ⟨hc, _⟩, rfl⟩ := ha
  simp only [Record.wellFormed, List.all_eq_true, Bool.and_eq_true, decide_eq_true_eq] at hwf
  exact hwf c hc

theorem rows_in_range (r : Record) (cols : Columns) (hwf : r.wellFormed = true)
    (hx : extractColumns r = .ok cols) (i : Nat) (hi : i < r.numRows) :
    ∃ name f c, cols.functionNameAt i = some name ∧ cols.flat[i]? = some f ∧
      cols.cumulative[i]? = some c := by
  obtain ⟨h1, h2, h3⟩ := (extractColumns_ok_iff r cols).mp hx
  have w1 := named_wellFormed r _ (.int64 cols.cumulative) hwf (by rw [h1]; simp)
  have w2 := named_wellFormed r _ (.int64 cols.flat) hwf (by rw [h2]; simp)
  have w3 := named_wellFormed r _
    (.dictionary cols.functionName (.string cols.functionNameDict)) hwf (by rw [h3]; simp)
  simp only [ArrowArray.Len] at w1 w2
  simp only [ArrowArray.Len, ArrowArray.wellFormed, Bool.true_and, List.all_eq_true,
    decide_eq_true_eq] at w3
  have hi1 : i < cols.cumulative.length := by omega
  have hi2 : i < cols.flat.length := by omega
  have hi3 : i < cols.functionName.length := by omega
  have hk : cols.functionName[i] < cols.functionNameDict.length :=
    w3.1 _ (List.getElem_mem hi3)
  refine ⟨cols.functionNameDict[cols.functionName[i]], cols.flat[i], cols.cumulative[i], ?_, ?_, ?_⟩
  · simp [Columns.functionNameAt, List.getElem?_eq_getElem hi3, List.getElem?_eq_getElem hk]
  · exact List.getElem?_eq_getElem hi2
  · exact List.getElem?_eq_getElem hi1

/-! ## The row scan -/

theorem appendMatches_eq (q : QueryConfig) (ts : Int) (cols : Columns) (i : Nat)
    (name : GoString) (f c : Int) (hf : cols.flat[i]? = some f)
    (hc : cols.cumulative[i]? = some c) (ms : List FunctionMatcher) (acc : List TimeSeries) :
    appendMatches q ts cols i name ms acc =
      some (acc ++ (ms.filter (fun m => strings.Contains name m.Contains)).flatMap
        (fun _ => [flatSeries q ts name f, cumulativeSeries q ts name c])) := by
  induction ms generalizing acc with
  | nil => simp [appendMatches]
  | cons m ms ih =>
    by_cases h : strings.Contains name m.Contains = true
    · simp [appendMatches, h, hf, hc, ih, List.filter_cons]
    · simp [appendMatches, h, ih, List.filter_cons]

theorem scanRows_eq (q : QueryConfig) (ts : Int) (cols : Columns)
    (name : Nat → GoString) (flat cumulative : Nat → Int) (rows : List Nat)
    (h : ∀ i ∈ rows, cols.functionNameAt i = some (name i) ∧ cols.flat[i]? = some (flat i) ∧
      cols.cumulative[i]? = some (cumulative i))
    (acc : List TimeSeries) :
    scanRows q ts cols rows acc =
      some (acc ++ rows.flatMap (fun i =>
        (q.Matchers.filter (fun m => strings.Contains (name i) m.Contains)).flatMap
          (fun _ => [flatSeries q ts (name i) (flat i),
                     cumulativeSeries q ts (name i) (cumulative i)]))) := by
  induction rows generalizing acc with
  | nil => simp [scanRows]
  | cons i rows ih =>
    obtain ⟨hn, hf, hc⟩ := h i (List.mem_cons_self i rows)
    have ih1 := fun acc1 => ih (fun j hj => h j (List.mem_cons_of_mem i hj)) acc1
    unfold Columns.functionNameAt at hn
    cases hk : cols.functionName[i]? with
    | none => simp [hk] at hn
    | some k =>
      simp only [hk] at hn
      simp [scanRows, hk, hn, appendMatches_eq q ts cols i (name i) (flat i) (cumulative i) hf hc,
        ih1, List.flatMap_cons]

theorem scanRows_wellFormed (q : QueryConfig) (ts : Int) (r : Record) (cols : Columns)
    (hwf : r.wellFormed = true) (hx : extractColumns r = .ok cols) (acc : List TimeSeries) :
    ∃ (name : Nat → GoString) (flat cumulative : Nat → Int),
      (∀ i, i < r.numRows → cols.functionNameAt i = some (name i) ∧
        cols.flat[i]? = some (flat i) ∧ cols.cumulative[i]? = some (cumulative i)) ∧
      scanRows q ts cols (List.range r.numRows) acc =
        some (acc ++ expectedSeries q ts name flat cumulative (List.range r.numRows)) := by
  refine ⟨fun i => (cols.functionNameAt i).getD [], fun i => (cols.flat[i]?).getD 0,
    fun i => (cols.cumulative[i]?).getD 0, ?_, ?_⟩
  · intro i hi
    obtain ⟨name, f, c, hn, hf, hc⟩ := rows_in_range r cols hwf hx i hi
    simp [hn, hf, hc]
  · apply scanRows_eq
    intro i hi
    obtain ⟨name, f, c, hn, hf, hc⟩ := rows_in_range r cols hwf hx i (List.mem_range.mp hi)
    simp [hn, hf, hc]

theorem appendMatches_some (q : QueryConfig) (ts : Int) (cols : Columns) (i : Nat)
    (name : GoString) (ms : List FunctionMatcher) (acc out : List TimeSeries)
    (h : appendMatches q ts cols i name ms acc = some out) :
    out = acc ++ (ms.filter (fun m => strings.Contains name m.Contains)).flatMap
        (fun _ => [flatSeries q ts name (cols.flatOf i),
                   cumulativeSeries q ts name (cols.cumulativeOf i)]) ∧
    (∀ m ∈ ms, strings.Contains name m.Contains = true →
      cols.flat[i]? = some (cols.flatOf i) ∧
      cols.cumulative[i]? = some (cols.cumulativeOf i)) := by
  induction ms generalizing acc with
  | nil =>
    simp only [appendMatches, Option.some.injEq] at h
    simp [h]
  | cons m ms ih =>
    unfold appendMatches at h
    split at h
    · rename_i hm
      split at h
      · rename_i f c hf hc
        obtain ⟨h1, h2⟩ := ih _ h
        have hf1 : cols.flatOf i = f := by simp [Columns.flatOf, hf]
        have hc1 : cols.cumulativeOf i = c := by simp [Columns.cumulativeOf, hc]
        refine ⟨?_, ?_⟩
        · rw [h1, hf1, hc1]
          simp [List.filter_cons, hm]
        · intro m1 hm1 hhit
          rcases List.mem_cons.mp hm1 with rfl | hm1
          · rw [hf1, hc1]; exact ⟨hf, hc⟩
          · exact h2 m1 hm1 hhit
      · cases h
    · rename_i hm
      obtain ⟨h1, h2⟩ := ih _ h
      refine ⟨?_, ?_⟩
      · rw [h1]; simp [List.filter_cons, hm]
      · intro m1 hm1 hhit
        rcases List.mem_cons.mp hm1 with rfl | hm1
        · exact absurd hhit hm
        · exact h2 m1 hm1 hhit

theorem scanRows_some (q : QueryConfig) (ts : Int) (cols : Columns) (rows : List Nat)
    (acc out : List TimeSeries) (h : scanRows q ts cols rows acc = some out) :
    out = acc ++ expectedSeries q ts cols.nameOf cols.flatOf cols.cumulativeOf rows ∧
    (∀ i ∈ rows, cols.functionNameAt i = some (cols.nameOf i)) ∧
    (∀ i ∈ rows, ∀ m ∈ q.Matchers, strings.Contains (cols.nameOf i) m.Contains = true →
      cols.flat[i]? = some (cols.flatOf i) ∧
      cols.cumulative[i]? = some (cols.cumulativeOf i)) := by
  induction rows generalizing acc with
  | nil =>
    simp only [scanRows, Option.some.injEq] at h
    simp [h, expectedSeries]
  | cons i rows ih =>
    unfold scanRows at h
    split at h
    · cases h
    · rename_i k hk
      split at h
      · cases h
      · rename_i functionName hname
        split at h
        · cases h
        · rename_i series1 hm
          obtain ⟨h1, h2, h3⟩ := ih _ h
          obtain ⟨a1, a2⟩ := appendMatches_some q ts cols i functionName q.Matchers acc
            series1 hm
          have hn : cols.functionNameAt i = some functionName := by
            simp [Columns.functionNameAt, hk, hname]
          have hn1 : cols.nameOf i = functionName := by simp [Columns.nameOf, hn]
          refine ⟨?_, ?_, ?_⟩
          · rw [h1, a1]
            simp [expectedSeries, List.flatMap_cons, hn1]
          · intro j hj
            rcases List.mem_cons.mp hj with rfl | hj
            · rw [hn1]; exact hn
            · exact h2 j hj
          · intro j hj m hmem hhit
            rcases List.mem_cons.mp hj with rfl | hj
            · rw [hn1] at hhit; exact a2 m hmem hhit
            · exact h3 j hj m hmem hhit

theorem expectedSeries_length (q : QueryConfig) (ts : Int) (name : Nat → GoString)
    (flat cumulative : Nat → Int) (rows : List Nat) :
    (expectedSeries q ts name flat cumulative rows).length =
      2 * (List.product rows q.Matchers).countP
        (fun p => strings.Contains (name p.1) p.2.Contains) := by
  induction rows with
  | nil => simp [expectedSeries]
  | cons i rows ih =>
    have hrow : ∀ (ms : List FunctionMatcher),
        ((ms.filter (fun m => strings.Contains (name i) m.Contains)).flatMap
          (fun _ => [flatSeries q ts (name i) (flat i),
            cumulativeSeries q ts (name i) (cumulative i)])).length =
        2 * ms.countP (fun m => strings.Contains (name i) m.Contains) := by
      intro ms
      induction ms with
      | nil => simp
      | cons m ms ihm =>
        by_cases h : strings.Contains (name i) m.Contains = true
        · simp [List.filter_cons, h, ihm]; omega
        · simp [List.filter_cons, h, ihm]
    have hp : List.product (i :: rows) q.Matchers =
        List.map (fun m => (i, m)) q.Matchers ++ List.product rows q.Matchers :=
      List.product_cons i rows q.Matchers
    unfold expectedSeries at ih ⊢
    rw [List.flatMap_cons, List.length_append, ih, hrow, hp, List.countP_append,
      List.countP_map]
    simp only [Function.comp_def]
    omega

theorem expectedSeries_matchCount (q : QueryConfig) (ts : Int) (cols : Columns)
    (name : Nat → GoString) (flat cumulative : Nat → Int) (numRows : Nat)
    (h : ∀ i, i < numRows → cols.functionNameAt i = some (name i)) :
    (expectedSeries q ts name flat cumulative (List.range numRows)).length =
      2 * matchCount q cols numRows := by
  rw [expectedSeries_length, matchCount]
  congr 1
  apply List.countP_congr
  rintro ⟨i, m⟩ hp
  have hi : i < numRows := by
    have := (List.pair_mem_product.mp hp).1
    exact List.mem_range.mp this
  simp [Columns.hit, h i hi]

theorem metricName_flatSeries (q : QueryConfig) (ts : Int) (name : GoString) (v : Int) :
    (flatSeries q ts name v).metricName = some (ascii "profile_exporter_flat_value") := by
  simp [TimeSeries.metricName, flatSeries]

theorem metricName_cumulativeSeries (q : QueryConfig) (ts : Int) (name : GoString) (v : Int) :
    (cumulativeSeries q ts name v).metricName =
      some (ascii "profile_exporter_cumulative_value") := by
  simp [TimeSeries.metricName, cumulativeSeries]

theorem expectedSeries_metricName (q : QueryConfig) (ts : Int) (name : Nat → GoString)
    (flat cumulative : Nat → Int) (rows : List Nat) (s : TimeSeries)
    (hs : s ∈ expectedSeries q ts name flat cumulative rows) :
    s.metricName ≠ some (ascii "profile_exporter_root_cumulative_value") := by
  simp only [expectedSeries, List.mem_flatMap, List.mem_cons, List.mem_singleton,
    List.not_mem_nil, or_false] at hs
  obtain ⟨i, _, _, _, h | h⟩ := hs
  · rw [h, metricName_flatSeries]; decide
  · rw [h, metricName_cumulativeSeries]; decide

/-! ## The cycle -/

theorem runCollection_of_scan (now : Int) (q : QueryConfig)
    (queryClient : QueryRequest → Except Error QueryResponse)
    (Send : WriteRequest → Option Error) (resp : QueryResponse) (record : Record)
    (rest : List Record) (cols : Columns) (series : List TimeSeries)
    (hq : queryClient (queryRequest now q) = .ok resp)
    (ht : resp.TableArrow = some (.records (record :: rest)))
    (hx : extractColumns record = .ok cols)
    (hs : scanRows q (Int.tdiv now 1000000) cols (List.range record.numRows)
      [rootSeries q (Int.tdiv now 1000000) resp.Total] = some series) :
    (runCollection now q queryClient Send).sent = [⟨series⟩] ∧
    (runCollection now q queryClient Send).request = queryRequest now q ∧
    (runCollection now q queryClient Send).result =
      match Send ⟨series⟩ with
      | some err => .error (ascii "write to remote write: " ++ err)
      | none => .nil := by
  unfold runCollection
  simp only [hq, ht, hx, hs]
  cases Send ⟨series⟩ <;> simp

theorem runCollection_of_validated (now : Int) (q : QueryConfig)
    (queryClient : QueryRequest → Except Error QueryResponse)
    (Send : WriteRequest → Option Error) (resp : QueryResponse) (record : Record)
    (rest : List Record) (cols : Columns)
    (hq : queryClient (queryRequest now q) = .ok resp)
    (ht : resp.TableArrow = some (.records (record :: rest)))
    (hx : extractColumns record = .ok cols) :
    runCollection now q queryClient Send =
      match scanRows q (Int.tdiv now 1000000) cols (List.range record.numRows)
          [rootSeries q (Int.tdiv now 1000000) resp.Total] with
      | none => ⟨queryRequest now q, [], .panic⟩
      | some series =>
        match Send ⟨series⟩ with
        | some err =>
          ⟨queryRequest now q, [⟨series⟩], .error (ascii "write to remote write: " ++ err)⟩
        | none => ⟨queryRequest now q, [⟨series⟩], .nil⟩ := by
  unfold runCollection
  simp only [hq, ht, hx]

theorem runCollection_sent_validated (now : Int) (q : QueryConfig)
    (queryClient : QueryRequest → Except Error QueryResponse)
    (Send : WriteRequest → Option Error) (resp : QueryResponse) (record : Record)
    (rest : List Record) (cols : Columns)
    (hq : queryClient (queryRequest now q) = .ok resp)
    (ht : resp.TableArrow = some (.records (record :: rest)))
    (hx : extractColumns record = .ok cols) (wr : WriteRequest)
    (hwr : wr ∈ (runCollection now q queryClient Send).sent) :
    (runCollection now q queryClient Send).sent = [wr] ∧
    (runCollection now q queryClient Send).result ≠ .panic ∧
    wr.Timeseries = rootSeries q (Int.tdiv now 1000000) resp.Total ::
      expectedSeries q (Int.tdiv now 1000000) cols.nameOf cols.flatOf cols.cumulativeOf
        (List.range record.numRows) ∧
    (∀ i, i < record.numRows → cols.functionNameAt i = some (cols.nameOf i)) ∧
    (∀ i, i < record.numRows → ∀ m ∈ q.Matchers,
      strings.Contains (cols.nameOf i) m.Contains = true →
        cols.flat[i]? = some (cols.flatOf i) ∧
        cols.cumulative[i]? = some (cols.cumulativeOf i)) := by
  rw [runCollection_of_validated now q queryClient Send resp record rest cols hq ht hx] at hwr ⊢
  cases hscan : scanRows q (Int.tdiv now 1000000) cols (List.range record.numRows)
      [rootSeries q (Int.tdiv now 1000000) resp.Total] with
  | none => simp [hscan] at hwr
  | some series =>
    obtain ⟨h1, h2, h3⟩ := scanRows_some q _ cols _ _ _ hscan
    simp only [hscan] at hwr ⊢
    have hw : wr = ⟨series⟩ := by
      cases hS : Send ⟨series⟩ <;> simp [hS] at hwr <;> exact hwr
    refine ⟨?_, ?_, ?_, fun i hi => h2 i (List.mem_range.mpr hi),
      fun i hi => h3 i (List.mem_range.mpr hi)⟩
    · cases hS : Send ⟨series⟩ <;> simp [hw]
    · cases hS : Send ⟨series⟩ <;> simp
    · rw [hw, h1]; rfl

theorem runCollection_sends_wellFormed (now : Int) (q : QueryConfig)
    (queryClient : QueryRequest → Except Error QueryResponse)
    (Send : WriteRequest → Option Error) (resp : QueryResponse) (record : Record)
    (rest : List Record) (cols : Columns)
    (hq : queryClient (queryRequest now q) = .ok resp)
    (ht : resp.TableArrow = some (.records (record :: rest)))
    (hx : extractColumns record = .ok cols) (hwf : record.wellFormed = true) :
    ∃ wr, wr ∈ (runCollection now q queryClient Send).sent := by
  obtain ⟨name, flat, cumulative, _, hscan⟩ :=
    scanRows_wellFormed q (Int.tdiv now 1000000) record cols hwf hx
      [rootSeries q (Int.tdiv now 1000000) resp.Total]
  obtain ⟨hsent, _, _⟩ := runCollection_of_scan now q queryClient Send resp record rest cols _
    hq ht hx hscan
  exact ⟨_, by rw [hsent]; exact List.mem_singleton.mpr rfl⟩

theorem runCollection_of_extract_error (now : Int) (q : QueryConfig)
    (queryClient : QueryRequest → Except Error QueryResponse)
    (Send : WriteRequest → Option Error) (resp : QueryResponse) (record : Record)
    (rest : List Record) (err : Error)
    (hq : queryClient (queryRequest now q) = .ok resp)
    (ht : resp.TableArrow = some (.records (record :: rest)))
    (hx : extractColumns record = .error err) :
    runCollection now q queryClient Send = ⟨queryRequest now q, [], .error err⟩ := by
  unfold runCollection
  simp only [hq, ht, hx]

/-! ## The series of a cycle (C1, C2, C3) -/

/-- C1: for a record that passes column validation, every request `runCollection` hands
to `Send` holds exactly `1 + 2 * K` series, `K` the number of pairs of a row index below
the row count and a matcher whose substring the function name of the row contains; with
`K = 0` (also when there are no rows or no matchers) it holds exactly one. When the
record is well formed such a request is handed to `Send`. -/
theorem runCollection_series_count (now : Int) (q : QueryConfig)
    (queryClient : QueryRequest → Except Error QueryResponse)
    (Send : WriteRequest → Option Error) (resp : QueryResponse) (record : Record)
    (rest : List Record) (cols : Columns)
    (hq : queryClient (queryRequest now q) = .ok resp)
    (ht : resp.TableArrow = some (.records (record :: rest)))
    (hx : extractColumns record = .ok cols) :
    (record.wellFormed = true →
      ∃ wr, (runCollection now q queryClient Send).sent = [wr]) ∧
    ∀ wr ∈ (runCollection now q queryClient Send).sent,
      wr.Timeseries.length = 1 + 2 * matchCount q cols record.numRows ∧
      (matchCount q cols record.numRows = 0 → wr.Timeseries.length = 1) ∧
      (record.numRows = 0 ∨ q.Matchers = [] → wr.Timeseries.length = 1) := by
  refine ⟨fun hwf => ?_, fun wr hwr => ?_⟩
  · obtain ⟨wr, hwr⟩ := runCollection_sends_wellFormed now q queryClient Send resp record rest
      cols hq ht hx hwf
    exact ⟨wr, (runCollection_sent_validated now q queryClient Send resp record rest cols
      hq ht hx wr hwr).1⟩
  · obtain ⟨_, _, hts, hname, _⟩ := runCollection_sent_validated now q queryClient Send resp
      record rest cols hq ht hx wr hwr
    have hlen := expectedSeries_matchCount q (Int.tdiv now 1000000) cols cols.nameOf
      cols.flatOf cols.cumulativeOf record.numRows hname
    rw [hts, List.length_cons, hlen]
    refine ⟨by omega, fun h0 => by rw [h0], fun h0 => ?_⟩
    have hK : matchCount q cols record.numRows = 0 := by
      rcases h0 with h0 | h0 <;> simp [matchCount, h0]
    rw [hK]

theorem runCollection_series_count_witness :
    extractColumns exampleRecord = .ok exampleColumns ∧
    exampleRecord.wellFormed = true ∧
    matchCount exampleQuery exampleColumns exampleRecord.numRows = 2 ∧
    (runCollection exampleNow exampleQuery (fun _ => .ok exampleResponse)
      (fun _ => none)).sent = [exampleWriteRequest] ∧
    exampleWriteRequest.Timeseries.length = 5 ∧
    ((exampleRecord.wellFormed = true →
      ∃ wr, (runCollection exampleNow exampleQuery (fun _ => .ok exampleResponse)
        (fun _ => none)).sent = [wr]) ∧
    ∀ wr ∈ (runCollection exampleNow exampleQuery (fun _ => .ok exampleResponse)
        (fun _ => none)).sent,
      wr.Timeseries.length = 1 + 2 * matchCount exampleQuery exampleColumns exampleRecord.numRows ∧
      (matchCount exampleQuery exampleColumns exampleRecord.numRows = 0 →
        wr.Timeseries.length = 1) ∧
      (exampleRecord.numRows = 0 ∨ exampleQuery.Matchers = [] → wr.Timeseries.length = 1)) :=
  ⟨by decide, by decide, by decide, by decide, by decide,
    runCollection_series_count exampleNow exampleQuery (fun _ => .ok exampleResponse)
      (fun _ => none) exampleResponse exampleRecord [] exampleColumns rfl rfl (by decide)⟩

/-- C2: for a record that passes column validation, every request `runCollection` hands
to `Send` starts with a series labelled `__name__ = profile_exporter_root_cumulative_value`,
`query = q.Query`, `query_name = q.Name` and nothing else, with exactly one sample whose
value is `float64` of the total; no other series of the request has that metric name,
whatever rows match. When the record is well formed such a request is handed to `Send`. -/
theorem runCollection_root_series (now : Int) (q : QueryConfig)
    (queryClient : QueryRequest → Except Error QueryResponse)
    (Send : WriteRequest → Option Error) (resp : QueryResponse) (record : Record)
    (rest : List Record) (cols : Columns)
    (hq : queryClient (queryRequest now q) = .ok resp)
    (ht : resp.TableArrow = some (.records (record :: rest)))
    (hx : extractColumns record = .ok cols) :
    (record.wellFormed = true →
      ∃ wr, (runCollection now q queryClient Send).sent = [wr]) ∧
    ∀ wr ∈ (runCollection now q queryClient Send).sent,
      ∃ first others, wr.Timeseries = first :: others ∧
        first.Labels = [⟨ascii "__name__", ascii "profile_exporter_root_cumulative_value"⟩,
                        ⟨ascii "query", q.Query⟩, ⟨ascii "query_name", q.Name⟩] ∧
        first.metricName = some (ascii "profile_exporter_root_cumulative_value") ∧
        first.Samples = [⟨Int.tdiv now 1000000, float64 resp.Total⟩] ∧
        (∀ s ∈ others,
          s.metricName ≠ some (ascii "profile_exporter_root_cumulative_value")) ∧
        (wr.Timeseries.filter (fun s => decide
          (s.metricName = some (ascii "profile_exporter_root_cumulative_value")))).length
          = 1 := by
  refine ⟨fun hwf => ?_, fun wr hwr => ?_⟩
  · obtain ⟨wr, hwr⟩ := runCollection_sends_wellFormed now q queryClient Send resp record rest
      cols hq ht hx hwf
    exact ⟨wr, (runCollection_sent_validated now q queryClient Send resp record rest cols
      hq ht hx wr hwr).1⟩
  · obtain ⟨_, _, hts, _, _⟩ := runCollection_sent_validated now q queryClient Send resp
      record rest cols hq ht hx wr hwr
    have hroot : (rootSeries q (Int.tdiv now 1000000) resp.Total).metricName =
        some (ascii "profile_exporter_root_cumulative_value") := by
      simp [TimeSeries.metricName, rootSeries]
    have hothers := expectedSeries_metricName q (Int.tdiv now 1000000) cols.nameOf
      cols.flatOf cols.cumulativeOf (List.range record.numRows)
    refine ⟨rootSeries q (Int.tdiv now 1000000) resp.Total, _, hts, rfl, hroot, rfl,
      hothers, ?_⟩
    have hnil : (expectedSeries q (Int.tdiv now 1000000) cols.nameOf cols.flatOf
        cols.cumulativeOf (List.range record.numRows)).filter (fun s => decide
          (s.metricName = some (ascii "profile_exporter_root_cumulative_value"))) = [] := by
      rw [List.filter_eq_nil_iff]
      intro s hs
      simpa using hothers s hs
    rw [hts]
    simp only [List.filter_cons, hroot, decide_True, if_true, hnil, List.length_singleton]

theorem runCollection_root_series_witness :
    extractColumns exampleRecord = .ok exampleColumns ∧
    exampleRecord.wellFormed = true ∧
    (runCollection exampleNow exampleQuery (fun _ => .ok exampleResponse)
      (fun _ => none)).sent = [exampleWriteRequest] ∧
    exampleWriteRequest.Timeseries.head? = some (rootSeries exampleQuery 1700000000123 1000) ∧
    (rootSeries exampleQuery 1700000000123 1000).Samples = [⟨1700000000123, 1000⟩] ∧
    ((exampleRecord.wellFormed = true →
      ∃ wr, (runCollection exampleNow exampleQuery (fun _ => .ok exampleResponse)
        (fun _ => none)).sent = [wr]) ∧
    ∀ wr ∈ (runCollection exampleNow exampleQuery (fun _ => .ok exampleResponse)
        (fun _ => none)).sent,
      ∃ first others, wr.Timeseries = first :: others ∧
        first.Labels = [⟨ascii "__name__", ascii "profile_exporter_root_cumulative_value"⟩,
                        ⟨ascii "query", exampleQuery.Query⟩,
                        ⟨ascii "query_name", exampleQuery.Name⟩] ∧
        first.metricName = some (ascii "profile_exporter_root_cumulative_value") ∧
        first.Samples = [⟨Int.tdiv exampleNow 1000000, float64 exampleResponse.Total⟩] ∧
        (∀ s ∈ others,
          s.metricName ≠ some (ascii "profile_exporter_root_cumulative_value")) ∧
        (wr.Timeseries.filter (fun s => decide
          (s.metricName = some (ascii "profile_exporter_root_cumulative_value")))).length
          = 1) :=
  ⟨by decide, by decide, by decide, by decide, by decide,
    runCollection_root_series exampleNow exampleQuery (fun _ => .ok exampleResponse)
      (fun _ => none) exampleResponse exampleRecord [] exampleColumns rfl rfl (by decide)⟩

/-- C3: for a record that passes column validation, in every request `runCollection`
hands to `Send` the series after the root series are the concatenation, over the rows in
increasing order and within a row over the matchers in configured order, of one pair per
matcher whose substring the function name of the row contains: a
`profile_exporter_flat_value` series with the `float64` of the flat value of the row,
then a `profile_exporter_cumulative_value` series with the `float64` of its cumulative
value, both labelled with the query, the query name and the function name. A row hit by
`k` matchers yields `k` equal pairs. When the record is well formed such a request is
handed to `Send`. -/
theorem runCollection_function_series (now : Int) (q : QueryConfig)
    (queryClient : QueryRequest → Except Error QueryResponse)
    (Send : WriteRequest → Option Error) (resp : QueryResponse) (record : Record)
    (rest : List Record) (cols : Columns)
    (hq : queryClient (queryRequest now q) = .ok resp)
    (ht : resp.TableArrow = some (.records (record :: rest)))
    (hx : extractColumns record = .ok cols) :
    (record.wellFormed = true →
      ∃ wr, (runCollection now q queryClient Send).sent = [wr]) ∧
    ∀ wr ∈ (runCollection now q queryClient Send).sent,
      ∃ (name : Nat → GoString) (flat cumulative : Nat → Int),
        (∀ i, i < record.numRows → cols.functionNameAt i = some (name i)) ∧
        (∀ i, i < record.numRows → ∀ m ∈ q.Matchers,
          strings.Contains (name i) m.Contains = true →
            cols.flat[i]? = some (flat i) ∧ cols.cumulative[i]? = some (cumulative i)) ∧
        wr.Timeseries.tail = (List.range record.numRows).flatMap (fun i =>
          (q.Matchers.filter (fun m => strings.Contains (name i) m.Contains)).flatMap
            (fun _ =>
              [ { Labels := [⟨ascii "__name__", ascii "profile_exporter_flat_value"⟩,
                             ⟨ascii "query", q.Query⟩, ⟨ascii "query_name", q.Name⟩,
                             ⟨ascii "function_name", name i⟩],
                  Samples := [⟨Int.tdiv now 1000000, float64 (flat i)⟩] },
                { Labels := [⟨ascii "__name__", ascii "profile_exporter_cumulative_value"⟩,
                             ⟨ascii "query", q.Query⟩, ⟨ascii "query_name", q.Name⟩,
                             ⟨ascii "function_name", name i⟩],
                  Samples := [⟨Int.tdiv now 1000000, float64 (cumulative i)⟩] } ])) := by
  refine ⟨fun hwf => ?_, fun wr hwr => ?_⟩
  · obtain ⟨wr, hwr⟩ := runCollection_sends_wellFormed now q queryClient Send resp record rest
      cols hq ht hx hwf
    exact ⟨wr, (runCollection_sent_validated now q queryClient Send resp record rest cols
      hq ht hx wr hwr).1⟩
  · obtain ⟨_, _, hts, hname, hvals⟩ := runCollection_sent_validated now q queryClient Send
      resp record rest cols hq ht hx wr hwr
    exact ⟨cols.nameOf, cols.flatOf, cols.cumulativeOf, hname, hvals, by rw [hts]; rfl⟩

theorem runCollection_function_series_witness :
    extractColumns exampleRecord = .ok exampleColumns ∧
    exampleRecord.wellFormed = true ∧
    (runCollection exampleNow exampleQuery (fun _ => .ok exampleResponse)
      (fun _ => none)).sent = [exampleWriteRequest] ∧
    exampleWriteRequest.Timeseries.tail =
      [flatSeries exampleQuery 1700000000123 (ascii "foo") 1,
       cumulativeSeries exampleQuery 1700000000123 (ascii "foo") 10,
       flatSeries exampleQuery 1700000000123 (ascii "foobar") 3,
       cumulativeSeries exampleQuery 1700000000123 (ascii "foobar") 30] ∧
    ((exampleRecord.wellFormed = true →
      ∃ wr, (runCollection exampleNow exampleQuery (fun _ => .ok exampleResponse)
        (fun _ => none)).sent = [wr]) ∧
    ∀ wr ∈ (runCollection exampleNow exampleQuery (fun _ => .ok exampleResponse)
        (fun _ => none)).sent,
      ∃ (name : Nat → GoString) (flat cumulative : Nat → Int),
        (∀ i, i < exampleRecord.numRows → exampleColumns.functionNameAt i = some (name i)) ∧
        (∀ i, i < exampleRecord.numRows → ∀ m ∈ exampleQuery.Matchers,
          strings.Contains (name i) m.Contains = true →
            exampleColumns.flat[i]? = some (flat i) ∧
            exampleColumns.cumulative[i]? = some (cumulative i)) ∧
        wr.Timeseries.tail = (List.range exampleRecord.numRows).flatMap (fun i =>
          (exampleQuery.Matchers.filter
            (fun m => strings.Contains (name i) m.Contains)).flatMap
            (fun _ =>
              [ { Labels := [⟨ascii "__name__", ascii "profile_exporter_flat_value"⟩,
                             ⟨ascii "query", exampleQuery.Query⟩,
                             ⟨ascii "query_name", exampleQuery.Name⟩,
                             ⟨ascii "function_name", name i⟩],
                  Samples := [⟨Int.tdiv exampleNow 1000000, float64 (flat i)⟩] },
                { Labels := [⟨ascii "__name__", ascii "profile_exporter_cumulative_value"⟩,
                             ⟨ascii "query", exampleQuery.Query⟩,
                             ⟨ascii "query_name", exampleQuery.Name⟩,
                             ⟨ascii "function_name", name i⟩],
                  Samples := [⟨Int.tdiv exampleNow 1000000, float64 (cumulative i)⟩] } ]))) :=
  ⟨by decide, by decide, by decide, by decide,
    runCollection_function_series exampleNow exampleQuery (fun _ => .ok exampleResponse)
      (fun _ => none) exampleResponse exampleRecord [] exampleColumns rfl rfl (by decide)⟩

/-! ## Column validation (C4, C5) -/

/-- C4: when the first record of the table lacks one of the columns `cumulative`, `flat`
and `function_name`, has one of them more than once, or has a `cumulative` or `flat`
column that is not an Int64 array, column validation fails, `runCollection` returns that
error and `Send` is not called. -/
theorem runCollection_rejects_bad_columns (now : Int) (q : QueryConfig)
    (queryClient : QueryRequest → Except Error QueryResponse)
    (Send : WriteRequest → Option Error) (resp : QueryResponse) (record : Record)
    (rest : List Record)
    (hq : queryClient (queryRequest now q) = .ok resp)
    (ht : resp.TableArrow = some (.records (record :: rest)))
    (hbad : (record.named (ascii "cumulative")).length ≠ 1 ∨
      (record.named (ascii "flat")).length ≠ 1 ∨
      (record.named (ascii "function_name")).length ≠ 1 ∨
      (∃ a ∈ record.named (ascii "cumulative"), a.isInt64 = false) ∨
      (∃ a ∈ record.named (ascii "flat"), a.isInt64 = false)) :
    ∃ err, extractColumns record = .error err ∧
      (runCollection now q queryClient Send).result = .error err ∧
      (runCollection now q queryClient Send).sent = [] := by
  obtain ⟨err, hx⟩ := extractColumns_error_of_bad record hbad
  refine ⟨err, hx, ?_, ?_⟩ <;>
    rw [runCollection_of_extract_error now q queryClient Send resp record rest err hq ht hx]

theorem runCollection_rejects_bad_columns_witness :
    ((recordWithoutFlat.named (ascii "cumulative")).length ≠ 1 ∨
      (recordWithoutFlat.named (ascii "flat")).length ≠ 1 ∨
      (recordWithoutFlat.named (ascii "function_name")).length ≠ 1 ∨
      (∃ a ∈ recordWithoutFlat.named (ascii "cumulative"), a.isInt64 = false) ∨
      (∃ a ∈ recordWithoutFlat.named (ascii "flat"), a.isInt64 = false)) ∧
    ∃ err, extractColumns recordWithoutFlat = .error err ∧
      (runCollection exampleNow exampleQuery
        (fun _ => .ok ⟨1000, some (.records [recordWithoutFlat])⟩)
        (fun _ => none)).result = .error err ∧
      (runCollection exampleNow exampleQuery
        (fun _ => .ok ⟨1000, some (.records [recordWithoutFlat])⟩)
        (fun _ => none)).sent = [] :=
  ⟨Or.inr (Or.inl (by decide)),
    runCollection_rejects_bad_columns exampleNow exampleQuery
      (fun _ => .ok ⟨1000, some (.records [recordWithoutFlat])⟩) (fun _ => none)
      ⟨1000, some (.records [recordWithoutFlat])⟩ recordWithoutFlat [] rfl rfl
      (Or.inr (Or.inl (by decide)))⟩

/-- C5, counterexample: a well-formed record with valid `cumulative` and `flat` columns
and a plain string `function_name` column fails column validation; `runCollection`
returns `function_name field is not dictionary` and does not call `Send`. -/
theorem plain_string_function_name_rejected :
    plainStringRecord.wellFormed = true ∧
    plainStringRecord.named (ascii "cumulative") = [.int64 [400]] ∧
    plainStringRecord.named (ascii "flat") = [.int64 [100]] ∧
    plainStringRecord.named (ascii "function_name") = [.string [ascii "main.work"]] ∧
    extractColumns plainStringRecord =
      .error (ascii "function_name field is not dictionary") ∧
    runCollection exampleNow exampleQuery
        (fun _ => .ok ⟨1000, some (.records [plainStringRecord])⟩) (fun _ => none) =
      ⟨queryRequest exampleNow exampleQuery, [],
        .error (ascii "function_name field is not dictionary")⟩ := by
  refine ⟨by decide, by decide, by decide, by decide, by decide, by decide⟩

/-- C5, amended: for a record with exactly one `cumulative` and one `flat` column, both
Int64 arrays, and exactly one `function_name` column, column validation passes exactly
when the `function_name` column is a dictionary array whose dictionary is a string array,
and it then binds the index values and the dictionary strings; a plain string column is
rejected: `runCollection` returns `function_name field is not dictionary` and does not
call `Send`. -/
theorem function_name_accepted_iff (now : Int) (q : QueryConfig)
    (queryClient : QueryRequest → Except Error QueryResponse)
    (Send : WriteRequest → Option Error) (resp : QueryResponse) (record : Record)
    (rest : List Record) (c f : List Int) (a : ArrowArray)
    (hq : queryClient (queryRequest now q) = .ok resp)
    (ht : resp.TableArrow = some (.records (record :: rest)))
    (h1 : record.named (ascii "cumulative") = [.int64 c])
    (h2 : record.named (ascii "flat") = [.int64 f])
    (h3 : record.named (ascii "function_name") = [a]) :
    ((∃ cols, extractColumns record = .ok cols) ↔
      ∃ idx vals, a = .dictionary idx (.string vals)) ∧
    (∀ idx vals, a = .dictionary idx (.string vals) →
      extractColumns record = .ok ⟨c, f, idx, vals⟩) ∧
    (∀ vals, a = .string vals →
      runCollection now q queryClient Send =
        ⟨queryRequest now q, [], .error (ascii "function_name field is not dictionary")⟩) := by
  have hres := extractColumns_resolved record _ _ _ h1 h2 h3
  refine ⟨⟨?_, ?_⟩, ?_, ?_⟩
  · rintro ⟨cols, hc⟩
    rw [hres, assertColumns_ok_iff] at hc
    exact ⟨_, _, hc.2.2⟩
  · rintro ⟨idx, vals, rfl⟩
    exact ⟨⟨c, f, idx, vals⟩, by rw [hres]; rfl⟩
  · rintro idx vals rfl
    rw [hres]; rfl
  · rintro vals rfl
    exact runCollection_of_extract_error now q queryClient Send resp record rest _ hq ht
      (by rw [hres]; rfl)

theorem function_name_accepted_iff_witness :
    exampleRecord.named (ascii "cumulative") = [.int64 [10, 20, 30]] ∧
    exampleRecord.named (ascii "flat") = [.int64 [1, 2, 3]] ∧
    exampleRecord.named (ascii "function_name") =
      [.dictionary [0, 1, 2] (.string [ascii "foo", ascii "bar", ascii "foobar"])] ∧
    extractColumns exampleRecord = .ok exampleColumns :=
  ⟨by decide, by decide, by decide,
    (function_name_accepted_iff exampleNow exampleQuery (fun _ => .ok exampleResponse)
      (fun _ => none) exampleResponse exampleRecord [] [10, 20, 30] [1, 2, 3]
      (.dictionary [0, 1, 2] (.string [ascii "foo", ascii "bar", ascii "foobar"]))
      rfl rfl (by decide) (by decide) (by decide)).2.1 _ _ rfl⟩

/-! ## Delivery (C6, C7) -/

theorem tdiv_hundred_eq_two (s : Int) : Int.tdiv s 100 = 2 ↔ 200 ≤ s ∧ s < 300 := by
  rcases Int.lt_or_le s 0 with h | h
  · have h2 : 0 ≤ Int.tdiv (-s) 100 := Int.tdiv_nonneg (by omega) (by decide)
    have h3 : s = -(-s) := by omega
    have h4 : Int.tdiv s 100 = -Int.tdiv (-s) 100 := by
      conv_lhs => rw [h3]
      exact Int.neg_tdiv (-s) 100
    omega
  · rw [Int.tdiv_eq_ediv h (by decide)]
    omega

theorem sendReq_of_response {H S A : Type} (env : Env H S A) (c : Client H S A)
    (req : GoString) (httpResp : Response)
    (hnew : env.newRequestErr c.urlString = none)
    (hdo : env.Do c.client (c.httpRequest req) = .ok httpResp) :
    c.sendReq env req =
      if 200 ≤ httpResp.StatusCode ∧ httpResp.StatusCode < 300 then none
      else some (ascii "server returned HTTP status " ++ httpResp.Status ++ ascii ": " ++
        ((scanLine (httpResp.Body.take maxErrMsgLen)).getD [])) := by
  unfold Client.sendReq
  simp only [hnew, hdo, ne_eq, tdiv_hundred_eq_two]
  by_cases h : 200 ≤ httpResp.StatusCode ∧ httpResp.StatusCode < 300
  · simp [h]
  · simp only [h, not_false_eq_true, if_true, if_false]
    cases scanLine (httpResp.Body.take maxErrMsgLen) <;> rfl

/-- C6: when the transport returns a response with status code `s` to `sendReq`, then
`sendReq`, and `Send` once the request is marshalled, return no error if and only if
`200 ≤ s < 300`; the test `s / 100 != 2` of the code, under truncating division, holds
exactly for the other status codes. -/
theorem sendReq_ok_iff_2xx {H S A : Type} (env : Env H S A) (c : Client H S A)
    (req : GoString) (httpResp : Response)
    (hnew : env.newRequestErr c.urlString = none)
    (hdo : env.Do c.client (c.httpRequest req) = .ok httpResp) :
    (c.sendReq env req = none ↔ 200 ≤ httpResp.StatusCode ∧ httpResp.StatusCode < 300) ∧
    (Int.tdiv httpResp.StatusCode 100 ≠ 2 ↔
      ¬ (200 ≤ httpResp.StatusCode ∧ httpResp.StatusCode < 300)) ∧
    (∀ wreq bytes, env.Marshal wreq = .ok bytes → env.snappyEncode bytes = req →
      (c.Send env wreq = none ↔ 200 ≤ httpResp.StatusCode ∧ httpResp.StatusCode < 300)) := by
  have hsend := sendReq_of_response env c req httpResp hnew hdo
  have h1 : c.sendReq env req = none ↔
      200 ≤ httpResp.StatusCode ∧ httpResp.StatusCode < 300 := by
    rw [hsend]
    by_cases h : 200 ≤ httpResp.StatusCode ∧ httpResp.StatusCode < 300
    · simp [h]
    · simp [h]
  refine ⟨h1, ?_, ?_⟩
  · rw [ne_eq, tdiv_hundred_eq_two]
  · intro wreq bytes hm henc
    unfold Client.Send
    simp only [hm, henc]
    exact h1

theorem sendReq_ok_iff_2xx_witness :
    ((exampleClient.sendReq (exampleEnv overloadedResponse) [] = none ↔
      200 ≤ overloadedResponse.StatusCode ∧ overloadedResponse.StatusCode < 300) ∧
    (Int.tdiv overloadedResponse.StatusCode 100 ≠ 2 ↔
      ¬ (200 ≤ overloadedResponse.StatusCode ∧ overloadedResponse.StatusCode < 300)) ∧
    (∀ wreq bytes, (exampleEnv overloadedResponse).Marshal wreq = .ok bytes →
      (exampleEnv overloadedResponse).snappyEncode bytes = [] →
      (exampleClient.Send (exampleEnv overloadedResponse) wreq = none ↔
        200 ≤ overloadedResponse.StatusCode ∧ overloadedResponse.StatusCode < 300))) ∧
    exampleClient.sendReq (exampleEnv overloadedResponse) [] ≠ none :=
  ⟨sendReq_ok_iff_2xx (exampleEnv overloadedResponse) exampleClient [] overloadedResponse
    rfl rfl, by decide⟩

theorem scanLine_first_line (d : GoString) :
    ∃ line rest, d = line ++ rest ∧ (10 : Fin 256) ∉ line ∧
      (rest = [] ∨ rest.head? = some 10) ∧
      (scanLine d).getD [] = if line.getLast? = some 13 then line.dropLast else line := by
  refine ⟨d.takeWhile (fun b => b != 10), d.dropWhile (fun b => b != 10),
    (List.takeWhile_append_dropWhile _ d).symm, ?_, ?_, ?_⟩
  · intro h
    have := List.mem_takeWhile_imp h
    simp at this
  · have h := List.head?_dropWhile_not (fun b : Fin 256 => b != 10) d
    cases hr : d.dropWhile (fun b => b != 10) with
    | nil => exact Or.inl rfl
    | cons x t =>
      right
      rw [hr] at h
      simp only [List.head?_cons, bne_eq_false_iff_eq] at h
      simp [h]
  · cases d with
    | nil => simp [scanLine]
    | cons x t => simp [scanLine, dropCR]

/-- C7, counterexample: for status 503 and the two-line body `over`, newline, `loaded`
the diagnostic of the error of `sendReq` is `over`, not the first `min(len, 1024)` bytes
of the body. -/
theorem sendReq_diagnostic_is_first_line :
    ¬ (200 ≤ twoLineResponse.StatusCode ∧ twoLineResponse.StatusCode < 300) ∧
    exampleClient.sendReq (exampleEnv twoLineResponse) [] =
      some (ascii "server returned HTTP status 503 Service Unavailable: over") ∧
    exampleClient.sendReq (exampleEnv twoLineResponse) [] ≠
      some (ascii "server returned HTTP status " ++ twoLineResponse.Status ++ ascii ": " ++
        twoLineResponse.Body.take (min twoLineResponse.Body.length 1024)) := by
  refine ⟨by decide, by decide, by decide⟩

/-- C7, amended: for a response with a status outside `[200, 300)` the error of `sendReq`
is `server returned HTTP status`, the status text of the response, a colon and a
diagnostic; the diagnostic is the first line of the first `min(len, 1024)` bytes of the
body: the bytes before the first newline, or all of them when there is none, without
one trailing carriage return. When those bytes hold no newline and do not end in a
carriage return the diagnostic is all of them. -/
theorem sendReq_error_first_line {H S A : Type} (env : Env H S A) (c : Client H S A)
    (req : GoString) (httpResp : Response)
    (hnew : env.newRequestErr c.urlString = none)
    (hdo : env.Do c.client (c.httpRequest req) = .ok httpResp)
    (hs : ¬ (200 ≤ httpResp.StatusCode ∧ httpResp.StatusCode < 300)) :
    (∃ line rest, httpResp.Body.take 1024 = line ++ rest ∧ (10 : Fin 256) ∉ line ∧
      (rest = [] ∨ rest.head? = some 10) ∧
      c.sendReq env req =
        some (ascii "server returned HTTP status " ++ httpResp.Status ++ ascii ": " ++
          (if line.getLast? = some 13 then line.dropLast else line))) ∧
    ((httpResp.Body.take 1024).length = min httpResp.Body.length 1024) ∧
    ((10 : Fin 256) ∉ httpResp.Body.take 1024 →
      (httpResp.Body.take 1024).getLast? ≠ some 13 →
      c.sendReq env req =
        some (ascii "server returned HTTP status " ++ httpResp.Status ++ ascii ": " ++
          httpResp.Body.take 1024)) := by
  have hsend := sendReq_of_response env c req httpResp hnew hdo
  simp only [hs, if_false, maxErrMsgLen] at hsend
  obtain ⟨line, rest, hsplit, hnl, hrest, hline⟩ := scanLine_first_line (httpResp.Body.take 1024)
  refine ⟨⟨line, rest, hsplit, hnl, hrest, by rw [hsend, hline]⟩, ?_, ?_⟩
  · rw [List.length_take, Nat.min_comm]
  · intro hno hcr
    have hrest0 : rest = [] := by
      rcases hrest with h | h
      · exact h
      · exfalso
        apply hno
        rw [hsplit]
        cases rest with
        | nil => simp at h
        | cons x t =>
          simp only [List.head?_cons, Option.some.injEq] at h
          simp [h]
    rw [hrest0, List.append_nil] at hsplit
    rw [hsend, hline, ← hsplit, if_neg hcr]

theorem sendReq_error_first_line_witness :
    ¬ (200 ≤ overloadedResponse.StatusCode ∧ overloadedResponse.StatusCode < 300) ∧
    exampleClient.sendReq (exampleEnv overloadedResponse) [] =
      some (ascii "server returned HTTP status 503 Service Unavailable: overloaded") ∧
    ((∃ line rest, overloadedResponse.Body.take 1024 = line ++ rest ∧ (10 : Fin 256) ∉ line ∧
      (rest = [] ∨ rest.head? = some 10) ∧
      exampleClient.sendReq (exampleEnv overloadedResponse) [] =
        some (ascii "server returned HTTP status " ++ overloadedResponse.Status ++ ascii ": " ++
          (if line.getLast? = some 13 then line.dropLast else line))) ∧
    ((overloadedResponse.Body.take 1024).length = min overloadedResponse.Body.length 1024) ∧
    ((10 : Fin 256) ∉ overloadedResponse.Body.take 1024 →
      (overloadedResponse.Body.take 1024).getLast? ≠ some 13 →
      exampleClient.sendReq (exampleEnv overloadedResponse) [] =
        some (ascii "server returned HTTP status " ++ overloadedResponse.Status ++ ascii ": " ++
          overloadedResponse.Body.take 1024))) :=
  ⟨by decide, by decide,
    sendReq_error_first_line (exampleEnv overloadedResponse) exampleClient []
      overloadedResponse rfl rfl (by decide)⟩

/-! ## Timestamps (C8) -/

theorem appendMatches_stamped (q : QueryConfig) (ts : Int) (cols : Columns) (i : Nat)
    (name : GoString) (ms : List FunctionMatcher) (acc out : List TimeSeries)
    (hacc : StampedAt ts acc) (h : appendMatches q ts cols i name ms acc = some out) :
    StampedAt ts out := by
  induction ms generalizing acc with
  | nil =>
    simp only [appendMatches, Option.some.injEq] at h
    exact h ▸ hacc
  | cons m ms ih =>
    unfold appendMatches at h
    split at h
    · split at h
      · refine ih _ ?_ h
        intro s hs
        simp only [List.mem_append, List.mem_cons, List.mem_singleton, List.not_mem_nil,
          or_false] at hs
        rcases hs with hs | hs | hs
        · exact hacc s hs
        · exact ⟨_, by rw [hs]; rfl⟩
        · exact ⟨_, by rw [hs]; rfl⟩
      · cases h
    · exact ih _ hacc h

theorem scanRows_stamped (q : QueryConfig) (ts : Int) (cols : Columns) (rows : List Nat)
    (acc out : List TimeSeries) (hacc : StampedAt ts acc)
    (h : scanRows q ts cols rows acc = some out) : StampedAt ts out := by
  induction rows generalizing acc with
  | nil =>
    simp only [scanRows, Option.some.injEq] at h
    exact h ▸ hacc
  | cons i rows ih =>
    unfold scanRows at h
    split at h
    · cases h
    · split at h
      · cases h
      · split at h
        · cases h
        · rename_i series1 hm
          exact ih _ (appendMatches_stamped q ts cols i _ _ _ _ hacc hm) h

theorem runCollection_sent_stamped (now : Int) (q : QueryConfig)
    (queryClient : QueryRequest → Except Error QueryResponse)
    (Send : WriteRequest → Option Error) (wr : WriteRequest)
    (hwr : wr ∈ (runCollection now q queryClient Send).sent) :
    StampedAt (Int.tdiv now 1000000) wr.Timeseries := by
  have hroot : ∀ total, StampedAt (Int.tdiv now 1000000)
      [rootSeries q (Int.tdiv now 1000000) total] := by
    intro total s hs
    simp only [List.mem_singleton] at hs
    exact ⟨_, by rw [hs]; rfl⟩
  unfold runCollection at hwr
  simp only at hwr
  split at hwr
  · simp at hwr
  · split at hwr
    · simp at hwr
    · simp at hwr
    · simp at hwr
    · split at hwr
      · simp at hwr
      · simp at hwr
      · split at hwr
        · simp at hwr
        · rename_i series hscan
          have hst := scanRows_stamped q _ _ _ _ _ (hroot _) hscan
          split at hwr <;>
            (simp only [List.mem_singleton] at hwr; rw [hwr]; exact hst)

/-- C8: in a request handed to `Send` by a cycle, every series has one sample and every
sample is stamped with the time `now` of the cycle in nanoseconds divided by `10 ^ 6`
(truncated), and `now` is the end of the window the cycle queried. -/
theorem runCollection_timestamps (now : Int) (q : QueryConfig)
    (queryClient : QueryRequest → Except Error QueryResponse)
    (Send : WriteRequest → Option Error) (wr : WriteRequest) (s : TimeSeries)
    (hwr : wr ∈ (runCollection now q queryClient Send).sent) (hs : s ∈ wr.Timeseries) :
    (∃ v, s.Samples = [⟨Int.tdiv now 1000000, v⟩]) ∧
    (∀ x ∈ s.Samples, x.Timestamp = Int.tdiv now 1000000) ∧
    (runCollection now q queryClient Send).request.End = now := by
  obtain ⟨v, hv⟩ := runCollection_sent_stamped now q queryClient Send wr hwr s hs
  refine ⟨⟨v, hv⟩, ?_, ?_⟩
  · intro x hx
    rw [hv] at hx
    simp only [List.mem_singleton] at hx
    rw [hx]
  · unfold runCollection
    simp only
    repeat (first | rfl | split)

theorem runCollection_timestamps_witness :
    exampleWriteRequest ∈ (runCollection exampleNow exampleQuery
      (fun _ => .ok exampleResponse) (fun _ => none)).sent ∧
    cumulativeSeries exampleQuery 1700000000123 (ascii "foobar") 30 ∈
      exampleWriteRequest.Timeseries ∧
    (∃ v, (cumulativeSeries exampleQuery 1700000000123 (ascii "foobar") 30).Samples =
      [⟨Int.tdiv exampleNow 1000000, v⟩]) ∧
    (∀ x ∈ (cumulativeSeries exampleQuery 1700000000123 (ascii "foobar") 30).Samples,
      x.Timestamp = Int.tdiv exampleNow 1000000) ∧
    (runCollection exampleNow exampleQuery (fun _ => .ok exampleResponse)
      (fun _ => none)).request.End = exampleNow :=
  ⟨by decide, by decide,
    runCollection_timestamps exampleNow exampleQuery (fun _ => .ok exampleResponse)
      (fun _ => none) exampleWriteRequest
      (cumulativeSeries exampleQuery 1700000000123 (ascii "foobar") 30)
      (by decide) (by decide)⟩

/-! ## The collection loop (C9) -/

theorem selectLoop_append (q : QueryConfig) (ticks rest : List Event)
    (logged : List Error) (hticks : ∀ e ∈ ticks, e.cycleReturns q) :
    selectLoop q (ticks ++ rest) logged =
      selectLoop q rest (logged ++ cycleErrors q ticks) := by
  induction ticks generalizing logged with
  | nil => simp [cycleErrors]
  | cons e ticks ih =>
    have hrest : ∀ e1 ∈ ticks, e1.cycleReturns q :=
      fun e1 h1 => hticks e1 (List.mem_cons_of_mem e h1)
    have he := hticks e (List.mem_cons_self e ticks)
    cases e with
    | done => exact he.elim
    | tick now queryClient Send =>
      simp only [Event.cycleReturns] at he
      simp only [List.cons_append, selectLoop, cycleErrors]
      cases hr : (runCollection now q queryClient Send).result with
      | nil => exact ih logged hrest
      | error err =>
        have h1 := ih (logged ++ [err]) hrest
        rw [List.append_assoc, List.singleton_append] at h1
        exact h1
      | panic => exact absurd hr he

theorem selectLoop_returned (q : QueryConfig) (events : List Event)
    (logged logged1 : List Error) (err : Option Error)
    (h : selectLoop q events logged = .returned err logged1) :
    err = none ∧ Event.done ∈ events := by
  induction events generalizing logged with
  | nil => simp [selectLoop] at h
  | cons e events ih =>
    cases e with
    | done =>
      simp only [selectLoop, LoopState.returned.injEq] at h
      exact ⟨h.1.symm, List.mem_cons_self _ _⟩
    | tick now queryClient Send =>
      simp only [selectLoop] at h
      split at h
      · exact ⟨(ih _ h).1, List.mem_cons_of_mem _ (ih _ h).2⟩
      · exact ⟨(ih _ h).1, List.mem_cons_of_mem _ (ih _ h).2⟩
      · cases h

theorem runCollectionLoop_of_positive (q : QueryConfig) (events : List Event)
    (hd : 0 < q.Duration) : runCollectionLoop q events = selectLoop q events [] := by
  unfold runCollectionLoop
  rw [if_neg (by omega)]

theorem runCollectionLoop_of_nonpositive (q : QueryConfig) (events : List Event)
    (hd : q.Duration ≤ 0) : runCollectionLoop q events = .panicked [] := by
  unfold runCollectionLoop
  rw [if_pos hd]

/-- C9: a cycle that returns an error does not end `runCollectionLoop`. For a query with
a positive duration (so that the ticker exists), after any sequence of ticks whose
cycles return (with whatever error) the loop has logged the errors and goes on with the
next event as its `for` loop does from that state: with no further event it is waiting
in its `select`, and when the context is done it returns nil. The loop only ever returns
after a done event, and then it returns nil. -/
theorem runCollectionLoop_survives_errors (q : QueryConfig) (ticks : List Event)
    (hd : 0 < q.Duration) (hticks : ∀ e ∈ ticks, e.cycleReturns q) :
    (∀ rest, runCollectionLoop q (ticks ++ rest) =
      selectLoop q rest (cycleErrors q ticks)) ∧
    runCollectionLoop q ticks = .waiting (cycleErrors q ticks) ∧
    (∀ rest, runCollectionLoop q (ticks ++ .done :: rest) =
      .returned none (cycleErrors q ticks)) ∧
    (∀ q1 events logged err,
      runCollectionLoop q1 events = .returned err logged →
        err = none ∧ Event.done ∈ events) := by
  have happ : ∀ rest, runCollectionLoop q (ticks ++ rest) =
      selectLoop q rest (cycleErrors q ticks) := by
    intro rest
    rw [runCollectionLoop_of_positive q _ hd, selectLoop_append q ticks rest [] hticks,
      List.nil_append]
  refine ⟨happ, ?_, ?_, ?_⟩
  · have h := happ []
    rw [List.append_nil] at h
    rw [h]; rfl
  · intro rest
    rw [happ]; rfl
  · intro q1 events logged err h
    rcases Int.lt_or_le 0 q1.Duration with h1 | h1
    · rw [runCollectionLoop_of_positive q1 _ h1] at h
      exact selectLoop_returned q1 events [] logged err h
    · rw [runCollectionLoop_of_nonpositive q1 _ h1] at h
      cases h

theorem runCollectionLoop_survives_errors_witness :
    0 < exampleQuery.Duration ∧
    cycleErrors exampleQuery exampleTicks =
      [ascii "query profiling data: unavailable",
       ascii ("write to remote write: " ++
         "server returned HTTP status 503 Service Unavailable: overloaded")] ∧
    ((∀ rest, runCollectionLoop exampleQuery (exampleTicks ++ rest) =
      selectLoop exampleQuery rest (cycleErrors exampleQuery exampleTicks)) ∧
    runCollectionLoop exampleQuery exampleTicks =
      .waiting (cycleErrors exampleQuery exampleTicks) ∧
    (∀ rest, runCollectionLoop exampleQuery (exampleTicks ++ .done :: rest) =
      .returned none (cycleErrors exampleQuery exampleTicks)) ∧
    (∀ q1 events logged err,
      runCollectionLoop q1 events = .returned err logged →
        err = none ∧ Event.done ∈ events)) :=
  ⟨by decide, by decide,
    runCollectionLoop_survives_errors exampleQuery exampleTicks (by decide) (by
      intro e he
      simp only [exampleTicks, List.mem_cons, List.mem_singleton, List.not_mem_nil,
        or_false] at he
      rcases he with rfl | rfl | rfl <;> simp only [Event.cycleReturns] <;> decide)⟩

/-! ## The transport chain of the client (C10) -/

/-- C10, counterexample: with both a `SigV4Config` and an `AzureADConfig` present
`NewClient` succeeds and the transport of the client is the managed-identity
round-tripper around the base transport: the request-signing round-tripper is not part
of the chain although `SigV4Config` is present. -/
theorem newClient_both_drops_sigV4 :
    bothAuthConfig.SigV4Config.isSome = true ∧
    ∃ c, NewClient (exampleEnv overloadedResponse) bothAuthConfig = .ok c ∧
      c.client.hasSigV4 = false ∧ c.client.hasAzureAD = true := by
  exact ⟨rfl, ⟨.azureAD () (.base ()), bothAuthConfig.URL, bothAuthConfig.Timeout⟩, rfl, rfl, rfl⟩

/-- C10, amended: for every configuration for which `NewClient` succeeds, the
request-signing round-tripper is part of the transport chain of the client exactly when
`SigV4Config` is present and `AzureADConfig` is absent, the managed-identity
round-tripper is part of it exactly when `AzureADConfig` is present, and the outermost
round-tripper is the one that injects headers exactly when `Headers` is not empty. -/
theorem newClient_transport_chain {H S A : Type} (env : Env H S A)
    (conf : ClientConfig H S A) (c : Client H S A) (h : NewClient env conf = .ok c) :
    (c.client.hasSigV4 = true ↔
      conf.SigV4Config.isSome = true ∧ conf.AzureADConfig.isSome = false) ∧
    (c.client.hasAzureAD = true ↔ conf.AzureADConfig.isSome = true) ∧
    (c.client.injectsHeaders = true ↔ conf.Headers ≠ []) := by
  obtain ⟨url, timeout, hcc, sig, az, hdrs⟩ := conf
  unfold NewClient at h
  simp only [Env.NewClientFromConfig, Env.NewSigV4RoundTripper, Env.NewAzureADRoundTripper,
    newInjectHeadersRoundTripper, bind, Except.bind, pure, Except.pure] at h
  cases h0 : env.clientFromConfigErr hcc with
  | some err => simp [h0] at h
  | none =>
    simp only [h0] at h
    cases sig with
    | none =>
      cases az with
      | none =>
        cases hdrs with
        | nil => simp at h; subst h; simp [RoundTripper.hasSigV4, RoundTripper.hasAzureAD, RoundTripper.injectsHeaders]
        | cons x t => simp at h; subst h; simp [RoundTripper.hasSigV4, RoundTripper.hasAzureAD, RoundTripper.injectsHeaders]
      | some a =>
        cases h2 : env.azureADErr a with
        | some err => simp [h2] at h
        | none =>
          cases hdrs with
          | nil => simp [h2] at h; subst h; simp [RoundTripper.hasSigV4, RoundTripper.hasAzureAD, RoundTripper.injectsHeaders]
          | cons x t => simp [h2] at h; subst h; simp [RoundTripper.hasSigV4, RoundTripper.hasAzureAD, RoundTripper.injectsHeaders]
    | some s =>
      cases h1 : env.sigV4Err s with
      | some err => simp [h1] at h
      | none =>
        cases az with
        | none =>
          cases hdrs with
          | nil => simp [h1] at h; subst h; simp [RoundTripper.hasSigV4, RoundTripper.hasAzureAD, RoundTripper.injectsHeaders]
          | cons x t => simp [h1] at h; subst h; simp [RoundTripper.hasSigV4, RoundTripper.hasAzureAD, RoundTripper.injectsHeaders]
        | some a =>
          cases h2 : env.azureADErr a with
          | some err => simp [h1, h2] at h
          | none =>
            cases hdrs with
            | nil => simp [h1, h2] at h; subst h; simp [RoundTripper.hasSigV4, RoundTripper.hasAzureAD, RoundTripper.injectsHeaders]
            | cons x t => simp [h1, h2] at h; subst h; simp [RoundTripper.hasSigV4, RoundTripper.hasAzureAD, RoundTripper.injectsHeaders]

theorem newClient_transport_chain_witness :
    NewClient (exampleEnv overloadedResponse) sigV4Config =
      .ok ⟨.injectHeaders [(ascii "X-Scope-OrgID", ascii "demo")] (.sigV4 () (.base ())),
        sigV4Config.URL, sigV4Config.Timeout⟩ ∧
    ((RoundTripper.injectHeaders [(ascii "X-Scope-OrgID", ascii "demo")]
        (RoundTripper.sigV4 () (RoundTripper.base ()) : RoundTripper Unit Unit Unit)).hasSigV4
        = true ↔
      sigV4Config.SigV4Config.isSome = true ∧ sigV4Config.AzureADConfig.isSome = false) :=
  ⟨rfl, (newClient_transport_chain (exampleEnv overloadedResponse) sigV4Config
    ⟨.injectHeaders [(ascii "X-Scope-OrgID", ascii "demo")] (.sigV4 () (.base ())),
        sigV4Config.URL, sigV4Config.Timeout⟩ rfl).1⟩

end ProfileExporter
